import Mathlib

/-!
# DASH: global references, view modifiers and compile-time sequence algebra

A verification development over three headers of the DASH PGAS library:

* `dash/GlobRef.h`        : the typed global reference `GlobRef<T>`,
* `dash/util/ArrayExpr.h` : `dash::ce::take`, `drop`, `split`, `append`, ...
* `dash/view/ViewMod.h`   : `ViewOrigin`, `ViewSubMod`, `ViewLocalMod`.

Global memory is byte addressed: a `dart_gptr_t` names one byte of one segment, an
element of type `T` occupies `sizeof(T)` consecutive bytes, and the one-sided
transfers copy object representations.  C++ types that only differ in their
`const` qualifier are described by `CType`; a failed `static_assert` is the
result `none`.
-/

namespace dash

/-! ## Global addresses and global memory -/

/-- One byte of global memory. -/
abbrev Byte := Fin 256

/-- The DART global pointer `dart_gptr_t`: unit id, flags, segment id, team id and
the byte offset inside the segment (the fields printed by `operator<<` in
`GlobRef.h`). -/
structure dart_gptr_t where
  unitid : Int
  flags : Nat
  segid : Int
  teamid : Int
  offset : Nat
deriving DecidableEq, Repr

/-- Global memory: the byte stored at every global address. -/
abbrev Memory := dart_gptr_t → Byte

/-- The address `i` bytes behind `g`, in the same segment of the same unit. -/
def byte_addr (g : dart_gptr_t) (i : Nat) : dart_gptr_t :=
  { g with offset := g.offset + i }

/-- Object representation of a trivially copyable value type: `sizeof` bytes that
are copied verbatim by the one-sided transfers. -/
class ObjRep (V : Type) where
  sizeof : Nat
  to_bytes : V → List Byte
  of_bytes : List Byte → V
  to_bytes_length : ∀ v : V, (to_bytes v).length = sizeof
  of_to_bytes : ∀ v : V, of_bytes (to_bytes v) = v

/-- The `n` bytes of memory starting at `g`. -/
def read_bytes (m : Memory) (g : dart_gptr_t) (n : Nat) : List Byte :=
  (List.range n).map (fun i => m (byte_addr g i))

/-- Memory after the bytes `bs` have been stored starting at `g`. -/
def write_bytes (m : Memory) (g : dart_gptr_t) (bs : List Byte) : Memory :=
  fun a =>
    if byte_addr g (a.offset - g.offset) = a ∧ g.offset ≤ a.offset then
      bs.getD (a.offset - g.offset) (m a)
    else m a

/-- Modelled from the spec: `dash::internal::get_blocking(gptr, dest, 1)`, of which
`GlobRef.h` only has the calls; the engine operation
`blocking_get(address, destBuffer, elementCount)` pulls one element, that is
`sizeof(T)` bytes starting at `address`, into caller-local storage and returns
only when the transfer is complete. -/
def get_blocking {V : Type} [ObjRep V] (gptr : dart_gptr_t) (m : Memory) : V :=
  ObjRep.of_bytes (read_bytes m gptr (ObjRep.sizeof V))

/-- Modelled from the spec: `dash::internal::put_blocking(gptr, src, 1)`, of which
`GlobRef.h` only has the calls; the engine operation
`blocking_put(address, srcBuffer, elementCount)` pushes the `sizeof(T)` bytes of
one element to `address` and returns only when the transfer is complete. -/
def put_blocking {V : Type} [ObjRep V] (gptr : dart_gptr_t) (src : V) (m : Memory) :
    Memory :=
  write_bytes m gptr (ObjRep.to_bytes src)

/-- Return codes of the communication engine. -/
inductive dart_ret_t where
  | DART_OK
  | DART_ERR_INVAL
deriving DecidableEq, Repr

/-- Modelled from the spec: the part of the external communication engine behind
`increment_address(address, byteOffset) → address | AddressError`; `in_segment g k`
tells whether the engine accepts advancing `g` by `k` bytes (segment bounds). -/
structure Engine where
  in_segment : dart_gptr_t → Nat → Bool

/-- Modelled from the spec: `dart_gptr_incaddr(&gptr, offs)`, of which `GlobRef.h`
only has the call.  An accepted increment adds `offs` to the 64-bit byte offset and
leaves all other fields alone; an increment that the engine rejects, or that
would leave the 64-bit offset range, reports an error and no address. -/
def dart_gptr_incaddr (E : Engine) (gptr : dart_gptr_t) (offs : Nat) :
    Except dart_ret_t dart_gptr_t :=
  if E.in_segment gptr offs && decide (gptr.offset + offs < 2 ^ 64) then
    .ok (byte_addr gptr offs)
  else .error dart_ret_t.DART_ERR_INVAL

/-! ## C++ types up to `const` -/

/-- A C++ object type as far as `GlobRef` inspects it: the unqualified type
(`std::remove_const<T>::type`, carried as the Lean type of its values) and whether
the type is `const`-qualified (`std::is_const<T>::value`). -/
structure CType where
  base : Type
  is_const : Bool

/-- The type `std::add_const<T>::type`. -/
def add_const (T : CType) : CType := { T with is_const := true }

/-- The type `std::remove_const<T>::type`. -/
def remove_const (T : CType) : CType := { T with is_const := false }

/-- The trait `internal::add_const_from_type<ReferenceT, TargetT>::type`: the primary
template yields `TargetT`, the partial specialisation for `const ReferenceT`
yields `std::add_const<TargetT>::type`. -/
def add_const_from_type (ReferenceT TargetT : CType) : CType :=
  if ReferenceT.is_const then add_const TargetT else TargetT

/-- A member function body guarded by `static_assert(c, ...)`: instantiating it is
ill-formed (`none`) unless `c` holds. -/
def static_assert {α : Type} (c : Bool) (body : α) : Option α :=
  if c then some body else none

/-! ## GlobRef -/

/-- The class `GlobRef<T>` for `T` with `std::remove_const<T>::type = V` and
`std::is_const<T>::value = is_const`; its only data member is the address `_gptr`. -/
structure GlobRef (V : Type) (is_const : Bool) where
  _gptr : dart_gptr_t
deriving DecidableEq, Repr

/-- The type `GlobRef<T>` of a C++ type descriptor `T`. -/
abbrev GlobRefOf (T : CType) : Type := GlobRef T.base T.is_const

namespace GlobRef

variable {V : Type} {c : Bool}

/-- The constructor `explicit constexpr GlobRef(dart_gptr_t dart_gptr)`. -/
def of_gptr (V : Type) (c : Bool) (dart_gptr : dart_gptr_t) : GlobRef V c := ⟨dart_gptr⟩

/-- The accessor `dart_gptr()`. -/
def dart_gptr (self : GlobRef V c) : dart_gptr_t := self._gptr

/-- The conversion `operator nonconst_value_type()`: fetches the element. -/
def conv [ObjRep V] (self : GlobRef V c) (m : Memory) : V :=
  get_blocking self._gptr m

/-- The member `set(const value_type & val)`; the `static_assert` demands
`std::is_same<value_type, nonconst_value_type>`, that is a non-const `T`. -/
def set [ObjRep V] (self : GlobRef V c) (val : V) (m : Memory) : Option Memory :=
  static_assert (!c) (put_blocking self._gptr val m)

/-- The member `nonconst_value_type get()`. -/
def get [ObjRep V] (self : GlobRef V c) (m : Memory) : V :=
  get_blocking self._gptr m

/-- The member `get(nonconst_value_type *tptr)`: the value left in `*tptr`. -/
def get_ptr [ObjRep V] (self : GlobRef V c) (m : Memory) : V :=
  get_blocking self._gptr m

/-- The member `get(nonconst_value_type& tref)`: the value left in `tref`. -/
def get_ref [ObjRep V] (self : GlobRef V c) (m : Memory) : V :=
  get_blocking self._gptr m

/-- The member `put(const_value_type& tref)`. -/
def put [ObjRep V] (self : GlobRef V c) (tref : V) (m : Memory) : Option Memory :=
  static_assert (!c) (put_blocking self._gptr tref m)

/-- The member `put(const_value_type* tptr)`, `tptr` pointing to the value `pointee`. -/
def put_ptr [ObjRep V] (self : GlobRef V c) (pointee : V) (m : Memory) : Option Memory :=
  static_assert (!c) (put_blocking self._gptr pointee m)

/-- The value-assignment `operator=(const value_type& val)`: `set(val); return *this`. -/
def assign [ObjRep V] (self : GlobRef V c) (val : V) (m : Memory) :
    Option (GlobRef V c × Memory) :=
  (self.set val m).map (fun m1 => (self, m1))

/-- The reference-assignment `operator=(const self_t & other)`:
`set(static_cast<T>(other)); return *this`. -/
def assign_ref [ObjRep V] (self other : GlobRef V c) (m : Memory) :
    Option (GlobRef V c × Memory) :=
  (self.set (other.conv m) m).map (fun m1 => (self, m1))

/-- The comparison `operator==(const ValueT& value)`:
`static_cast<T>(*this) == value`. -/
def eq_value [ObjRep V] [DecidableEq V] (self : GlobRef V c) (value : V) (m : Memory) :
    Bool :=
  decide (self.conv m = value)

/-- The comparison `operator!=(const ValueT& value)`: `!(*this == value)`. -/
def ne_value [ObjRep V] [DecidableEq V] (self : GlobRef V c) (value : V) (m : Memory) :
    Bool :=
  !(self.eq_value value m)

/-- The comparison `operator==(const GlobRef<ValueT> & other)`:
`ValueT val = other.get(); return operator==(val);`. -/
def eq_ref [ObjRep V] [DecidableEq V] {c2 : Bool} (self : GlobRef V c)
    (other : GlobRef V c2) (m : Memory) : Bool :=
  let val := other.get m
  self.eq_value val m

/-- The comparison `operator!=(const GlobRef<ValueT> & other)`: `!(*this == other)`. -/
def ne_ref [ObjRep V] [DecidableEq V] {c2 : Bool} (self : GlobRef V c)
    (other : GlobRef V c2) (m : Memory) : Bool :=
  !(self.eq_ref other m)

/-- The member `member<MEMTYPE>(size_t offs)`: copies `_gptr`, advances the copy by
`offs` bytes (`DASH_ASSERT_RETURNS(dart_gptr_incaddr(&dartptr, offs), DART_OK)`) and
wraps it as `GlobRef<add_const_from_type<T, MEMTYPE>::type>`. -/
def member (E : Engine) (MEMTYPE : CType) (self : GlobRef V c) (offs : Nat) :
    Except dart_ret_t
      (GlobRef MEMTYPE.base (add_const_from_type ⟨V, c⟩ MEMTYPE).is_const) :=
  let dartptr := self._gptr
  match dart_gptr_incaddr E dartptr offs with
  | .ok dartptr1 => .ok (GlobRef.of_gptr _ _ dartptr1)
  | .error e => .error e

/-- The member `swap(dash::GlobRef<T> & b)`:
`T tmp = static_cast<T>(*this); *this = b; b = tmp;` behind the `static_assert`. -/
def swap [ObjRep V] (self b : GlobRef V c) (m : Memory) : Option Memory :=
  (static_assert (!c) ()).bind fun _ =>
    let tmp := self.conv m
    (self.assign_ref b m).bind fun r1 =>
      (b.assign tmp r1.2).bind fun r2 => some r2.2

end GlobRef

/-- The free function `swap(GlobRef<T> && a, GlobRef<T> && b)`: `a.swap(b)`. -/
def swap {V : Type} {c : Bool} [ObjRep V] (a b : GlobRef V c) (m : Memory) :
    Option Memory :=
  a.swap b m

/-! ## Pointers to data members -/

/-- A pointer to data member `D P::*`: the declared type `D` of the member and its
byte position inside the class `P`. -/
structure MemberPtr where
  declared : CType
  byte_offset : Nat

/-- Template argument deduction of `MEMTYPE` for the parameter
`const MEMTYPE P::*mem`: the `const` of the pattern absorbs the qualifier of the
declared member type, so `MEMTYPE` is the unqualified member type (a pointer to a
non-const member binds through a qualification conversion). -/
def deduce_MEMTYPE (mem : MemberPtr) : CType := remove_const mem.declared

/-- The member `member(const MEMTYPE P::*mem)`:
`size_t offs = (size_t) &(reinterpret_cast<P*>(0)->*mem);`
`return member<add_const_from_type<T, MEMTYPE>::type>(offs);`, converted to the
declared return type `GlobRef<add_const_from_type<T, MEMTYPE>::type>`. -/
def GlobRef.member_ptr {V : Type} {c : Bool} (E : Engine) (self : GlobRef V c)
    (mem : MemberPtr) :
    Except dart_ret_t
      (GlobRef mem.declared.base
        (add_const_from_type ⟨V, c⟩ (deduce_MEMTYPE mem)).is_const) :=
  let MEMTYPE := deduce_MEMTYPE mem
  let offs := mem.byte_offset
  match self.member E (add_const_from_type ⟨V, c⟩ MEMTYPE) offs with
  | .ok r => .ok (GlobRef.of_gptr _ _ r._gptr)
  | .error e => .error e

/-- The elements of type `V` at `a` and at `b` share no byte: no byte address of
the `sizeof(V)` bytes behind `a` is one of the `sizeof(V)` bytes behind `b`. -/
def disjoint_elems (V : Type) [ObjRep V] (a b : dart_gptr_t) : Prop :=
  ∀ i, i < ObjRep.sizeof V → ∀ j, j < ObjRep.sizeof V → byte_addr a i ≠ byte_addr b j

instance (V : Type) [ObjRep V] (a b : dart_gptr_t) : Decidable (disjoint_elems V a b) :=
  inferInstanceAs (Decidable (∀ i, i < ObjRep.sizeof V → ∀ j, j < ObjRep.sizeof V →
    byte_addr a i ≠ byte_addr b j))

/-- Memory after the further writes `ws`, each given by its address and its bytes,
have been carried out in order. -/
def write_all (m : Memory) (ws : List (dart_gptr_t × List Byte)) : Memory :=
  ws.foldl (fun m1 w => write_bytes m1 w.1 w.2) m

/-- None of the writes `ws` touches a byte of the element of type `V` at `g`. -/
def no_write_to (V : Type) [ObjRep V] (g : dart_gptr_t)
    (ws : List (dart_gptr_t × List Byte)) : Prop :=
  ∀ w ∈ ws, ∀ i, i < ObjRep.sizeof V → ∀ j, j < w.2.length → byte_addr g i ≠ byte_addr w.1 j

instance (V : Type) [ObjRep V] (g : dart_gptr_t) (ws : List (dart_gptr_t × List Byte)) :
    Decidable (no_write_to V g ws) :=
  inferInstanceAs (Decidable (∀ w ∈ ws, ∀ i, i < ObjRep.sizeof V → ∀ j, j < w.2.length →
    byte_addr g i ≠ byte_addr w.1 j))

/-! ## Sample element types -/

/-- The element type `unsigned char`: one byte. -/
instance : ObjRep Byte where
  sizeof := 1
  to_bytes v := [v]
  of_bytes bs := bs.getD 0 0
  to_bytes_length _ := rfl
  of_to_bytes _ := rfl

/-- A two byte aggregate `struct byte_pair { unsigned char first; unsigned char
second; }` with `first` at byte offset 0 and `second` at byte offset 1. -/
structure byte_pair where
  first : Byte
  second : Byte
deriving DecidableEq, Repr

instance : ObjRep byte_pair where
  sizeof := 2
  to_bytes v := [v.first, v.second]
  of_bytes bs := ⟨bs.getD 0 0, bs.getD 1 0⟩
  to_bytes_length _ := rfl
  of_to_bytes _ := rfl

/-- A sample address: byte `offs` of segment 0 of unit 0 in team 0. -/
def sample_gptr (offs : Nat) : dart_gptr_t :=
  { unitid := 0, flags := 0, segid := 0, teamid := 0, offset := offs }

/-- A sample memory: the byte at offset `k` of every segment is `k + 1` (mod 256). -/
def sample_memory : Memory := fun a => Fin.ofNat (a.offset + 1)

/-- An engine whose segments are 1024 bytes long. -/
def sample_engine : Engine := { in_segment := fun g k => decide (g.offset + k ≤ 1024) }

/-! ## Compile-time sequence algebra (`dash::ce`) -/

namespace ce

variable {ValueT : Type}

/-- The index pack of `dash::ce::make_index_sequence<N>` (declared in
`dash/util/IndexSequence.h`, which `ArrayExpr.h` includes; the C++14
`std::make_index_sequence`): the indices 0, 1, ..., N-1 in this order. -/
def make_index_sequence (N : Nat) : List Nat := List.range N

/-- The access `std::get<I>(values)` into a `std::array<ValueT, NElem>`, carried as
the list of its `NElem` elements: ill-formed (`none`) unless `I < NElem`. -/
def std_get (I : Nat) (values : List ValueT) : Option ValueT := values[I]?

/-- The braced initialiser `{{ f(Is)... }}`: the pack expansion over the indices
`Is`, one element per index in pack order; ill-formed as soon as one element is. -/
def expand (f : Nat → Option ValueT) : List Nat → Option (List ValueT)
  | [] => some []
  | i :: Is =>
    match f i, expand f Is with
    | some x, some xs => some (x :: xs)
    | _, _ => none

/-- The static length `(NDrop > NElem) ? 0 : NElem - NDrop` of the result of `drop`. -/
def drop_size (NDrop NElem : Nat) : Nat := if NDrop > NElem then 0 else NElem - NDrop

/-- The static length `(NTake > NElem) ? NElem : NTake` of the result of `take`. -/
def take_size (NTake NElem : Nat) : Nat := if NTake > NElem then NElem else NTake

/-- The helper `detail::drop_impl<NDrop>(values, index_sequence<Is...>)`:
`{{ std::get<NDrop + Is>(values)... }}`. -/
def detail.drop_impl (NDrop : Nat) (values : List ValueT) (Is : List Nat) :
    Option (List ValueT) :=
  expand (fun i => std_get (NDrop + i) values) Is

/-- The function `drop<NDrop>(values)`. -/
def drop (NDrop : Nat) (values : List ValueT) : Option (List ValueT) :=
  detail.drop_impl NDrop values (make_index_sequence (drop_size NDrop values.length))

/-- The function `tail(values)`: `drop<1>(values)`. -/
def tail (values : List ValueT) : Option (List ValueT) := drop 1 values

/-- The helper `detail::take_impl<NTake>(values, index_sequence<Is...>)`:
`{{ std::get<Is>(values)... }}`. -/
def detail.take_impl (values : List ValueT) (Is : List Nat) : Option (List ValueT) :=
  expand (fun i => std_get i values) Is

/-- The function `take<NTake>(values)`. -/
def take (NTake : Nat) (values : List ValueT) : Option (List ValueT) :=
  detail.take_impl values (make_index_sequence (take_size NTake values.length))

/-- The function `head(values)`: `take<1>(values)`. -/
def head (values : List ValueT) : Option (List ValueT) := take 1 values

/-- The class `split<ValueT, NElemLeft, NElemRight>`: its member `_values` is a
`std::array<ValueT, NElemLeft + NElemRight>`. -/
structure split (ValueT : Type) where
  NElemLeft : Nat
  NElemRight : Nat
  _values : List ValueT
deriving DecidableEq, Repr

/-- The constructor `split(const std::array<ValueT, NElem> & values)`; it only
accepts an array of `NElem = NElemLeft + NElemRight` elements. -/
def split.of_array (NElemLeft NElemRight : Nat) (values : List ValueT) :
    Option (split ValueT) :=
  if values.length = NElemLeft + NElemRight then
    some { NElemLeft := NElemLeft, NElemRight := NElemRight, _values := values }
  else none

/-- The member `split::left()`: `take<NElemLeft, ValueT, NElem>(_values)`. -/
def split.left (self : split ValueT) : Option (List ValueT) :=
  take self.NElemLeft self._values

/-- The member `split::right()`: `drop<NElemLeft, ValueT, NElem>(_values)`. -/
def split.right (self : split ValueT) : Option (List ValueT) :=
  drop self.NElemLeft self._values

/-- The helper `detail::append_impl(left, right, index_sequence<LIs...>,
index_sequence<RIs...>)`: `{ std::get<LIs>(left)..., std::get<RIs>(right)... }`. -/
def detail.append_impl (left right : List ValueT) (LIs RIs : List Nat) :
    Option (List ValueT) :=
  match expand (fun i => std_get i left) LIs, expand (fun i => std_get i right) RIs with
  | some ls, some rs => some (ls ++ rs)
  | _, _ => none

/-- The function `append(left, right)` on two arrays. -/
def append (left right : List ValueT) : Option (List ValueT) :=
  detail.append_impl left right (make_index_sequence left.length)
    (make_index_sequence right.length)

/-- The function `append(left, elem)` on an array and one element:
`append_impl(left, std::array<ValueT, 1>({ elem }), ...)`. -/
def append_elem (left : List ValueT) (elem : ValueT) : Option (List ValueT) :=
  detail.append_impl left [elem] (make_index_sequence left.length) (make_index_sequence 1)

end ce

/-! ## View modifiers (`dash/view/ViewMod.h`) -/

/-- The address of an object; two objects are the same object exactly when their
addresses agree (`this == &rhs`). -/
abbrev ObjAddr := Nat

/-- The type `dash::default_index_t` (a signed integer). -/
abbrev index_t := Int

/-- Types of objects that a view node can refer to as its domain: `addr_of d` is
`&d`. -/
class Addressable (α : Type) where
  addr_of : α → ObjAddr

/-- The class `ViewOrigin`: a stateless object, known by its address only. -/
structure ViewOrigin where
  addr : ObjAddr
deriving DecidableEq, Repr

instance : Addressable ViewOrigin := ⟨ViewOrigin.addr⟩

/-- The comparison `ViewOrigin::operator==`: `this == &rhs`. -/
def ViewOrigin.eq (self rhs : ViewOrigin) : Bool := self.addr == rhs.addr

/-- The comparison `ViewOrigin::operator!=`: `!(*this == rhs)`. -/
def ViewOrigin.ne (self rhs : ViewOrigin) : Bool := !(self.eq rhs)

/-- The class `ViewSubMod<DimDiff, DomainType, IndexType>`: `addr` is the address
of the node, `_domain` the object the reference member `domain_type & _domain` is
bound to, `_begin` and `_end` the two index members. -/
structure ViewSubMod (DomainType : Type) where
  addr : ObjAddr
  _domain : DomainType
  _begin : index_t
  _end : index_t
deriving DecidableEq, Repr

instance (DomainType : Type) : Addressable (ViewSubMod DomainType) := ⟨ViewSubMod.addr⟩

namespace ViewSubMod

variable {DomainType : Type}

/-- The constructor `ViewSubMod(DomainType & domain, IndexType begin, IndexType end)`
with initialiser list `_domain(domain), _begin(begin), _end(end)`, building the node
at address `this`. -/
def ctor (this : ObjAddr) (domain : DomainType) (begin_ end_ : index_t) :
    ViewSubMod DomainType :=
  { addr := this, _domain := domain, _begin := begin_, _end := end_ }

/-- The comparison `ViewSubMod::operator==`:
`this == &rhs || (&_domain == &rhs._domain && _begin == rhs._begin && _end == rhs._end)`. -/
def eq [Addressable DomainType] (self rhs : ViewSubMod DomainType) : Bool :=
  self.addr == rhs.addr ||
    (Addressable.addr_of self._domain == Addressable.addr_of rhs._domain &&
      self._begin == rhs._begin && self._end == rhs._end)

/-- The comparison `ViewSubMod::operator!=`: `!(*this == rhs)`. -/
def ne [Addressable DomainType] (self rhs : ViewSubMod DomainType) : Bool :=
  !(self.eq rhs)

/-- The accessor `domain()`: `return _domain`. -/
def domain (self : ViewSubMod DomainType) : DomainType := self._domain

/-- The data invariant `0 ≤ begin ≤ end` of a sub-range node. -/
def invariant (self : ViewSubMod DomainType) : Prop :=
  0 ≤ self._begin ∧ self._begin ≤ self._end

instance (self : ViewSubMod DomainType) : Decidable self.invariant :=
  inferInstanceAs (Decidable (0 ≤ self._begin ∧ self._begin ≤ self._end))

/-- The member functions that can be called on a `ViewSubMod` node. -/
inductive Call (DomainType : Type) where
  | op_eq (rhs : ViewSubMod DomainType)
  | op_ne (rhs : ViewSubMod DomainType)
  | begin_
  | end_
  | domain
  | local_
  | size
  | empty

/-- The node after a member function call: every member function is `const` or
has the body of its `const` twin, none assigns to `_domain`, `_begin` or `_end`
(the members are private and the class has no assignment), so the node is the one
before the call. -/
def after (_call : Call DomainType) (self : ViewSubMod DomainType) :
    ViewSubMod DomainType :=
  self

end ViewSubMod

/-- Modelled from the spec: the external pattern of a distributed container as
seen from the calling unit, `global(localIndex) → globalIndex`,
`local(globalIndex) → localIndex` and `local_capacity() → integer`. -/
structure Pattern where
  global : index_t → index_t
  local_ : index_t → index_t
  local_capacity : index_t

/-- The class `ViewSubLocalIndexSet`: `pattern` is `dash::origin(_view_local_mod)
.pattern()`, and `view_begin`, `view_end` are the values of
`dash::begin(_view_local_mod)` and `dash::end(_view_local_mod)`, the bounds of the
sub-range the local modifier is applied to. -/
structure ViewSubLocalIndexSet where
  pattern : Pattern
  view_begin : index_t
  view_end : index_t

/-- The member `ViewSubLocalIndexSet::begin()`:
`pattern().local(std::max(dash::begin(_view_local_mod), pattern().global(0)))`. -/
def ViewSubLocalIndexSet.begin_ (self : ViewSubLocalIndexSet) : index_t :=
  self.pattern.local_ (max self.view_begin (self.pattern.global 0))

/-- The member `ViewSubLocalIndexSet::end()`:
`pattern().local(std::min(dash::end(_view_local_mod),
pattern().global(pattern().local_capacity() - 1) + 1))`. -/
def ViewSubLocalIndexSet.end_ (self : ViewSubLocalIndexSet) : index_t :=
  self.pattern.local_
    (min self.view_end (self.pattern.global (self.pattern.local_capacity - 1) + 1))

/-- Modelled from the spec: the pattern of the local clamping property, a global
range split evenly into blocks of `blocksize` indices, as seen from unit
`unit`: the unit is resident on the global indices from `blocksize * unit` up to
`blocksize * unit + blocksize`, `global(l) = blocksize * unit + l`, and `local(g)`
is the offset of `g` inside the block of the unit owning `g`. -/
def blocked_pattern (blocksize : index_t) (unit : index_t) : Pattern :=
  { global := fun l => blocksize * unit + l
    local_ := fun g => g % blocksize
    local_capacity := blocksize }

/-- The index set of `LocalMod` over `SubMod(domain, b, e)` on unit `unit` of the
evenly blocked pattern over 16 global indices on 4 units. -/
def local_of_sub_16_4 (unit b e : index_t) : ViewSubLocalIndexSet :=
  { pattern := blocked_pattern 4 unit, view_begin := b, view_end := e }

/-! ## GlobRef: constness of the value type, fields, converting constructors -/

/-- The constant `std::is_const<value_type>::value` of the class of a reference. -/
def GlobRef.value_type_is_const {V : Type} {c : Bool} (_self : GlobRef V c) : Bool := c

/-- The class `S` has a data member of type `F` at byte offset `k`, read by the
accessor `proj`: the member lies inside the object, and reading it from an object
with the bytes `bs` is a raw read of the `sizeof(F)` bytes at offset `k`. -/
structure FieldAt (S F : Type) [ObjRep S] [ObjRep F] (k : Nat) (proj : S → F) : Prop where
  inside : k + ObjRep.sizeof F ≤ ObjRep.sizeof S
  raw_read : ∀ bs : List Byte, bs.length = ObjRep.sizeof S →
    proj (ObjRep.of_bytes bs) = ObjRep.of_bytes ((bs.drop k).take (ObjRep.sizeof F))

instance (V : Type) (ca cb : Bool) :
    Decidable (remove_const ⟨V, ca⟩ = remove_const ⟨V, cb⟩) :=
  isTrue rfl

/-- The trait `internal::enable_implicit_copy_ctor<A, B>`: its `enable_if`
condition, `is_same<remove_cv<A>, remove_cv<B>> && is_const<A> && is_const<B>`. -/
def enable_implicit_copy_ctor (A B : CType) [Decidable (remove_const A = remove_const B)] :
    Bool :=
  decide (remove_const A = remove_const B) && A.is_const && B.is_const

/-- The trait `internal::enable_explicit_copy_ctor<A, B>`: its `enable_if`
condition, `is_same<remove_cv<A>, remove_cv<B>> && is_const<A> && !is_const<B>`. -/
def enable_explicit_copy_ctor (A B : CType) [Decidable (remove_const A = remove_const B)] :
    Bool :=
  decide (remove_const A = remove_const B) && A.is_const && !B.is_const

/-- The constructors of `GlobRef<T>` that take a `GlobRef`. -/
inductive Ctor where
  /-- The constructor `GlobRef(const GlobRef<nonconst_value_type>& gref)`. -/
  | from_nonconst
  /-- The constructor `template<_T, long = enable_implicit_copy_ctor<_T,
  value_type>::value> GlobRef(const GlobRef<_T>& gref)`. -/
  | implicit_template
  /-- The constructor `template<_T, int = enable_explicit_copy_ctor<_T,
  value_type>::value> explicit GlobRef(const GlobRef<_T>& gref)`. -/
  | explicit_template
  /-- The constructor `GlobRef(self_t && other) = default`. -/
  | move_ctor
  /-- The implicitly declared `GlobRef(const self_t &)` of a class without a
  user-declared copy constructor; it is defined as deleted because the class
  declares a move constructor (C++11 [class.copy]/7). A constructor template is
  never a copy constructor, so the templates do not keep it from being declared. -/
  | implicit_copy
deriving DecidableEq, Repr

/-- What overload resolution looks at in a constructor. -/
structure Overload where
  ctor : Ctor
  is_template : Bool
  is_explicit : Bool
  is_deleted : Bool
  rvalue_param : Bool
deriving DecidableEq, Repr

/-- Value category of the source expression. -/
inductive ValueCategory where
  | lvalue
  | rvalue
deriving DecidableEq, Repr

/-- Form of the initialisation: `GlobRef<B> b = a;` is an implicit conversion
(copy-initialisation), `GlobRef<B> b(a);` an explicit one (direct-initialisation). -/
inductive Initialization where
  | copy_init
  | direct_init
deriving DecidableEq, Repr

/-- The viable constructors of `GlobRef<B>`, `B` having constness `cb`, for a source
of type `GlobRef<A>`, `A` having constness `ca` and the same unqualified type `V`:
* line 84 binds a `GlobRef<remove_const B>`, that is a non-const source;
* the two templates exist where their `enable_if` condition holds, the explicit
  one only for direct-initialisation;
* the move constructor binds an rvalue of type `GlobRef<B>`;
* a const `B` has no user-declared copy constructor (line 84 then takes another
  class), so its copy constructor is implicitly declared, as deleted. -/
def viable_ctors (V : Type) (ca cb : Bool) (cat : ValueCategory) (init : Initialization) :
    List Overload :=
  (if !ca then [⟨Ctor.from_nonconst, false, false, false, false⟩] else []) ++
  (if enable_implicit_copy_ctor ⟨V, ca⟩ ⟨V, cb⟩ then
    [⟨Ctor.implicit_template, true, false, false, false⟩] else []) ++
  (if enable_explicit_copy_ctor ⟨V, ca⟩ ⟨V, cb⟩ && init == Initialization.direct_init then
    [⟨Ctor.explicit_template, true, true, false, false⟩] else []) ++
  (if ca == cb && cat == ValueCategory.rvalue then
    [⟨Ctor.move_ctor, false, false, false, true⟩] else []) ++
  (if cb && ca == cb then [⟨Ctor.implicit_copy, false, false, true, false⟩] else [])

/-- Overload resolution among viable constructors whose parameters all bind the
source directly (C++11 [over.match.best]): an rvalue reference parameter beats an
lvalue reference parameter, then a non-template beats a template specialisation.
A deleted function takes part like any other. -/
def select_ctor (cs : List Overload) : Option Overload :=
  match cs.filter (fun o => o.rvalue_param) with
  | o :: _ => some o
  | [] =>
    match cs.filter (fun o => !o.is_template) with
    | o :: _ => some o
    | [] => cs.head?

/-- Initialising a `GlobRef<B>` from the `GlobRef<A>` `gref`: ill-formed (`none`)
when no constructor is viable or the selected one is deleted; every constructor
delegates to `GlobRef(gref.dart_gptr())`. -/
def GlobRef.construct {V : Type} {ca : Bool} (cb : Bool) (cat : ValueCategory)
    (init : Initialization) (gref : GlobRef V ca) : Option (GlobRef V cb) :=
  match select_ctor (viable_ctors V ca cb cat init) with
  | some o => if o.is_deleted then none else some (GlobRef.of_gptr V cb gref.dart_gptr)
  | none => none

/-! ## GlobRef: compound operators -/

/-- The built-in division `x / y` of a C++ element type: `none` where the behaviour
is undefined and the program traps, as for an integer type and `y == 0`. -/
class CDiv (V : Type) where
  div : V → V → Option V

/-- Division on `unsigned char`: undefined for the divisor 0. -/
instance : CDiv Byte where
  div x y := if y = 0 then none else some (x / y)

namespace GlobRef

variable {V : Type} {c : Bool}

/-- The operator `operator+=(const nonconst_value_type& ref)`:
`val = operator nonconst_value_type(); val += ref; operator=(val); return *this;`
behind the `static_assert`. -/
def add_assign [ObjRep V] [Add V] (self : GlobRef V c) (ref : V) (m : Memory) :
    Option (GlobRef V c × Memory) :=
  (static_assert (!c) ()).bind fun _ =>
    let val := self.conv m
    let val1 := val + ref
    self.assign val1 m

/-- The operator `operator-=(const nonconst_value_type& ref)`. -/
def sub_assign [ObjRep V] [Sub V] (self : GlobRef V c) (ref : V) (m : Memory) :
    Option (GlobRef V c × Memory) :=
  (static_assert (!c) ()).bind fun _ =>
    let val := self.conv m
    let val1 := val - ref
    self.assign val1 m

/-- The prefix operator `operator++()`: `val = operator nonconst_value_type();
operator=(++val); return *this;`. -/
def pre_inc [ObjRep V] [Add V] [One V] (self : GlobRef V c) (m : Memory) :
    Option (GlobRef V c × Memory) :=
  (static_assert (!c) ()).bind fun _ =>
    let val := self.conv m
    let val1 := val + 1
    self.assign val1 m

/-- The postfix operator `operator++(int)`: `val = operator nonconst_value_type();
res = val++; operator=(val); return res;`. -/
def post_inc [ObjRep V] [Add V] [One V] (self : GlobRef V c) (m : Memory) :
    Option (V × Memory) :=
  (static_assert (!c) ()).bind fun _ =>
    let val := self.conv m
    let res := val
    let val1 := val + 1
    (self.assign val1 m).map fun r => (res, r.2)

/-- The prefix operator `operator--()`: `val = operator nonconst_value_type();
operator=(--val); return *this;`. -/
def pre_dec [ObjRep V] [Sub V] [One V] (self : GlobRef V c) (m : Memory) :
    Option (GlobRef V c × Memory) :=
  (static_assert (!c) ()).bind fun _ =>
    let val := self.conv m
    let val1 := val - 1
    self.assign val1 m

/-- The postfix operator `operator--(int)`: `val = operator nonconst_value_type();
res = val--; operator=(val); return res;`. -/
def post_dec [ObjRep V] [Sub V] [One V] (self : GlobRef V c) (m : Memory) :
    Option (V × Memory) :=
  (static_assert (!c) ()).bind fun _ =>
    let val := self.conv m
    let res := val
    let val1 := val - 1
    (self.assign val1 m).map fun r => (res, r.2)

/-- The operator `operator*=(const_value_type& ref)`. -/
def mul_assign [ObjRep V] [Mul V] (self : GlobRef V c) (ref : V) (m : Memory) :
    Option (GlobRef V c × Memory) :=
  (static_assert (!c) ()).bind fun _ =>
    let val := self.conv m
    let val1 := val * ref
    self.assign val1 m

/-- The operator `operator/=(const_value_type& ref)`:
`val = operator nonconst_value_type(); val /= ref; operator=(val); return *this;`
behind the `static_assert`, which makes the operator ill-formed (`none`) on a const
reference. On a non-const reference, where `val /= ref` has no result the operator
does not get to its store and does not complete (`none` as well). -/
def div_assign [ObjRep V] [CDiv V] (self : GlobRef V c) (ref : V) (m : Memory) :
    Option (GlobRef V c × Memory) :=
  (static_assert (!c) ()).bind fun _ =>
    let val := self.conv m
    (CDiv.div val ref).bind fun val1 =>
      self.assign val1 m

/-- The operator `operator^=(const_value_type& ref)`. -/
def xor_assign [ObjRep V] [Xor V] (self : GlobRef V c) (ref : V) (m : Memory) :
    Option (GlobRef V c × Memory) :=
  (static_assert (!c) ()).bind fun _ =>
    let val := self.conv m
    let val1 := val ^^^ ref
    self.assign val1 m

/-- The four read entry points: `get()`, `get(nonconst_value_type *tptr)`,
`get(nonconst_value_type& tref)` and `operator nonconst_value_type()`. -/
inductive ReadEntry where
  | get
  | get_ptr
  | get_ref
  | conv
deriving DecidableEq, Repr

/-- A read through one of the entry points: the value handed to the caller (returned,
or left in `*tptr` or `tref`) and global memory afterwards. Each body is one call
of `get_blocking`, a one-sided pull that writes caller-local storage only. -/
def read [ObjRep V] (self : GlobRef V c) (m : Memory) : ReadEntry → V × Memory
  | .get => (self.get m, m)
  | .get_ptr => (self.get_ptr m, m)
  | .get_ref => (self.get_ref m, m)
  | .conv => (self.conv m, m)

/-- The operations of `GlobRef<T>` on one reference: the four read entry points, the
comparisons, the accessor `dart_gptr()`, the locality test, the two member
projections, and the mutating operations. Another reference taking part is given
by its address. -/
inductive Op (V : Type) where
  | get
  | get_ptr
  | get_ref
  | conv
  | eq_value (value : V)
  | ne_value (value : V)
  | eq_ref (other : dart_gptr_t)
  | ne_ref (other : dart_gptr_t)
  | dart_gptr
  | is_local
  | member (offs : Nat)
  | member_ptr (mem : MemberPtr)
  | set (val : V)
  | put (tref : V)
  | put_ptr (pointee : V)
  | assign (val : V)
  | assign_ref (other : dart_gptr_t)
  | add_assign (ref : V)
  | sub_assign (ref : V)
  | mul_assign (ref : V)
  | div_assign (ref : V)
  | xor_assign (ref : V)
  | pre_inc
  | post_inc
  | pre_dec
  | post_dec
  | swap (b : dart_gptr_t)

/-- Whether an operation is one of the mutating ones, those whose body starts with
the `static_assert` or consists of a call to `set`. -/
def Op.mutating : Op V → Bool
  | .get | .get_ptr | .get_ref | .conv | .eq_value _ | .ne_value _ | .eq_ref _ | .ne_ref _
  | .dart_gptr | .is_local | .member _ | .member_ptr _ => false
  | _ => true

/-- Global memory after an operation on `self`, `none` when the operation is
ill-formed (on a const reference every mutating operation is, by its
`static_assert`) or, for `operator/=` on a non-const reference, when the division
has no result. The comparisons only read through `get()` and the conversion, and
`dart_gptr()`, `is_local()` and the member projections only read `_gptr`: they
leave global memory as it is. -/
def exec [ObjRep V] [Add V] [Sub V] [Mul V] [CDiv V] [Xor V] [One V]
    (self : GlobRef V c) (m : Memory) : Op V → Option Memory
  | .get => some (self.read m .get).2
  | .get_ptr => some (self.read m .get_ptr).2
  | .get_ref => some (self.read m .get_ref).2
  | .conv => some (self.read m .conv).2
  | .eq_value _ | .ne_value _ | .eq_ref _ | .ne_ref _
  | .dart_gptr | .is_local | .member _ | .member_ptr _ => some m
  | .set val => self.set val m
  | .put tref => self.put tref m
  | .put_ptr pointee => self.put_ptr pointee m
  | .assign val => (self.assign val m).map Prod.snd
  | .assign_ref other => (self.assign_ref (GlobRef.of_gptr V c other) m).map Prod.snd
  | .add_assign ref => (self.add_assign ref m).map Prod.snd
  | .sub_assign ref => (self.sub_assign ref m).map Prod.snd
  | .mul_assign ref => (self.mul_assign ref m).map Prod.snd
  | .div_assign ref => (self.div_assign ref m).map Prod.snd
  | .xor_assign ref => (self.xor_assign ref m).map Prod.snd
  | .pre_inc => (self.pre_inc m).map Prod.snd
  | .post_inc => (self.post_inc m).map Prod.snd
  | .pre_dec => (self.pre_dec m).map Prod.snd
  | .post_dec => (self.post_dec m).map Prod.snd
  | .swap b => self.swap (GlobRef.of_gptr V c b) m

/-- The value of type `V` that memory `m` holds at `g`: the object whose
representation is the `sizeof(V)` bytes behind `g`. -/
def stored_value (V : Type) [ObjRep V] (g : dart_gptr_t) (m : Memory) : V :=
  ObjRep.of_bytes (read_bytes m g (ObjRep.sizeof V))

end GlobRef

/-! ## Sequence algebra: `reverse` and `replace_nth` -/

namespace ce

/-- The instantiation `reverse<ValueT, NElem>`:
`NElem > 1 ? append(reverse(tail(values)), head(values)) : values`, the inner call
being the instantiation for the static length of `tail(values)`. -/
def reverse_inst {ValueT : Type} (NElem : Nat) (values : List ValueT) :
    Option (List ValueT) :=
  if _h : NElem > 1 then
    (tail values).bind fun t =>
      (reverse_inst (drop_size 1 NElem) t).bind fun rt =>
        (head values).bind fun hd => append rt hd
  else some values
termination_by NElem
decreasing_by
  unfold drop_size
  split <;> omega

/-- The function `reverse(values)` on a `std::array<ValueT, NElem>`. -/
def reverse {ValueT : Type} (values : List ValueT) : Option (List ValueT) :=
  reverse_inst values.length values

/-- The function `replace_nth<IElem>(elem, values)`:
`append(append(take<IElem>(values), elem), drop<IElem + 1>(values))`, returned as
a `std::array<ValueT, NElem>`, which is ill-formed unless the lengths agree. -/
def replace_nth {ValueT : Type} (IElem : Nat) (elem : ValueT) (values : List ValueT) :
    Option (List ValueT) :=
  (take IElem values).bind fun front =>
    (append_elem front elem).bind fun front1 =>
      (drop (IElem + 1) values).bind fun back =>
        (append front1 back).bind fun result =>
          if result.length = values.length then some result else none

end ce

/-! ## View modifiers: types, traits and ranges -/

/-- What `ViewMod.h` uses of a domain type from outside it (a container): the four
constants that `view_traits` of the type reports, and whether the type declares the
member typedef `local_type`. -/
structure domain_traits where
  is_projection : Bool
  is_view : Bool
  is_origin : Bool
  is_local : Bool
  has_local_type : Bool
deriving DecidableEq, Repr

/-- The types of view nodes: `ViewOrigin`, the instantiations
`ViewSubMod<DimDiff, DomainType, IndexType>` and
`ViewLocalMod<DimDiff, DomainType, IndexType>`, and domain types from outside
`ViewMod.h`, known by their traits. -/
inductive ViewType where
  | ViewOrigin
  | ViewSubMod (DimDiff : Int) (DomainType : ViewType)
  | ViewLocalMod (DimDiff : Int) (DomainType : ViewType)
  | Domain (traits : domain_traits)
deriving DecidableEq, Repr

/-- The record of a specialisation of `view_traits`; `index_type` is `index_t`
throughout. -/
structure view_traits_record where
  origin_type : ViewType
  domain_type : ViewType
  image_type : ViewType
  is_projection : Bool
  is_view : Bool
  is_origin : Bool
  is_local : Bool
deriving DecidableEq, Repr

/-- The member typedef `ViewOrigin::domain_type`: `self_t`. -/
def ViewOrigin.domain_type : ViewType := ViewType.ViewOrigin

/-- The member constant `ViewOrigin::is_local`: `false`. -/
def ViewOrigin.is_local : Bool := false

/-- The template `view_traits`:
* `view_traits<ViewOrigin>` and `view_traits<ViewLocalMod<DimDiff, DomainType,
  IndexType>>` are the two specialisations of `ViewMod.h`;
* Modelled from the spec: `view_traits<ViewSubMod<...>>`, whose definition
  `ViewMod.h` includes from `dash/view/ViewTraits.h`, has `is_origin = false`,
  `is_view = true`, `is_projection = (dimdiff != 0)` and `is_local` inherited from
  the domain (the member typedef `ViewSubMod::is_local` is
  `view_traits<DomainType>::is_local`);
* a domain type from outside brings its own four constants and is its own origin
  and domain. -/
def view_traits : ViewType → view_traits_record
  | .ViewOrigin =>
    { origin_type := .ViewOrigin, domain_type := .ViewOrigin, image_type := .ViewOrigin
      is_projection := false, is_view := true, is_origin := true, is_local := false }
  | .ViewLocalMod DimDiff DomainType =>
    { domain_type := DomainType
      origin_type := (view_traits DomainType).origin_type
      image_type := .ViewLocalMod DimDiff DomainType
      is_projection := DimDiff != 0, is_view := true, is_origin := false, is_local := true }
  | .ViewSubMod DimDiff DomainType =>
    { domain_type := DomainType
      origin_type := (view_traits DomainType).origin_type
      image_type := .ViewSubMod DimDiff DomainType
      is_projection := DimDiff != 0, is_view := true, is_origin := false
      is_local := (view_traits DomainType).is_local }
  | .Domain t =>
    { origin_type := .Domain t, domain_type := .Domain t, image_type := .Domain t
      is_projection := t.is_projection, is_view := t.is_view, is_origin := t.is_origin
      is_local := t.is_local }

/-- The two partial specialisations of `ViewLocalModBase<ViewLocalModType,
LocalOfSub>`. -/
inductive LocalModBase where
  /-- The specialisation for `LocalOfSub = true`: the non-trivial case with range
  calculations, whose `apply()` returns the image index set. -/
  | local_of_sub
  /-- The specialisation for `LocalOfSub = false`: the trivial case, whose `apply()`
  returns `dash::local(_domain)`. -/
  | local_of_origin
deriving DecidableEq, Repr

/-- Whether `typename T::local_type` names a type. `ViewOrigin` declares the members
`index_type`, `domain_type` and `is_local` and no `local_type`; `ViewSubMod` declares
`typedef ViewLocalMod<DimDiff, self_t, IndexType> local_type`; `ViewLocalMod`
declares `typedef self_t local_type`, and naming a member of it instantiates the
class, which itself names `domain_type::local_type`. -/
def has_local_type : ViewType → Bool
  | .ViewOrigin => false
  | .ViewSubMod _ _ => true
  | .ViewLocalMod _ DomainType => has_local_type DomainType
  | .Domain t => t.has_local_type

/-- The template argument `LocalOfSub` that `ViewLocalMod<DimDiff, DomainType,
IndexType>` passes to its base class: `dash::view_traits<DomainType>::is_view::value`. -/
def ViewLocalMod.LocalOfSub (DomainType : ViewType) : Bool :=
  (view_traits DomainType).is_view

/-- The instantiation of `ViewLocalModBase<ViewLocalModType, LocalOfSub>` for a
`ViewLocalModType` with the domain type `DomainType`: both specialisations declare
`typedef typename domain_type::local_type local_type`, so without a member
`local_type` of the domain type the class is ill-formed (`none`). -/
def ViewLocalModBase.instantiate (DomainType : ViewType) (LocalOfSub : Bool) :
    Option LocalModBase :=
  if has_local_type DomainType then
    some (if LocalOfSub then LocalModBase.local_of_sub else LocalModBase.local_of_origin)
  else none

/-- The base class of `ViewLocalMod<DimDiff, DomainType, IndexType>`:
`ViewLocalModBase<ViewLocalMod<...>, view_traits<DomainType>::is_view::value>`;
`none` when the class is ill-formed. The class itself declares
`typedef typename domain_type::local_type image_type`, which asks of the domain type
what the base asks. -/
def ViewLocalMod.base (DomainType : ViewType) : Option LocalModBase :=
  ViewLocalModBase.instantiate DomainType (ViewLocalMod.LocalOfSub DomainType)

/-- The member `apply()` of a `ViewLocalMod` over a domain of type `DomainType`:
with the base `ViewLocalModBase<..., true>` it is `return _image_index_set`, with
the base `ViewLocalModBase<..., false>` it is `return dash::local(_domain)`;
`domain_local` is the value of the local-projection accessor of the domain. There
is no `apply()` (`none`) when the class is ill-formed. -/
def ViewLocalMod.apply {Local : Type} (DomainType : ViewType) (domain_local : Local)
    (_image_index_set : ViewSubLocalIndexSet) : Option (Local ⊕ ViewSubLocalIndexSet) :=
  (ViewLocalMod.base DomainType).map fun base =>
    match base with
    | .local_of_sub => .inr _image_index_set
    | .local_of_origin => .inl domain_local

/-- Ranges: domain objects `d` with an iterator `dash::begin(d)`; iterators are
positions of type `index_t`, advanced by `+`. -/
class Range (α : Type) where
  begin_ : α → index_t

/-- The member `ViewSubMod::begin()`: `dash::begin(dash::domain(*this)) + _begin`. -/
def ViewSubMod.begin_ {DomainType : Type} [Range DomainType]
    (self : ViewSubMod DomainType) : index_t :=
  Range.begin_ self.domain + self._begin

/-- The member `ViewSubMod::end()`: `dash::begin(dash::domain(*this)) + _end`. -/
def ViewSubMod.end_ {DomainType : Type} [Range DomainType]
    (self : ViewSubMod DomainType) : index_t :=
  Range.begin_ self.domain + self._end

instance (DomainType : Type) [Range DomainType] : Range (ViewSubMod DomainType) :=
  ⟨ViewSubMod.begin_⟩

/-- The member `ViewSubMod::size()`:
`dash::distance(dash::begin(*this), dash::end(*this))`, the distance of two
positions being their difference. -/
def ViewSubMod.size {DomainType : Type} [Range DomainType]
    (self : ViewSubMod DomainType) : index_t :=
  self.end_ - self.begin_

/-- The member `ViewSubMod::empty()`: `size() == 0`. -/
def ViewSubMod.empty {DomainType : Type} [Range DomainType]
    (self : ViewSubMod DomainType) : Bool :=
  self.size == 0

/-- A container domain at address `addr` whose first element is at position
`first`. -/
structure sample_container where
  addr : ObjAddr
  first : index_t
deriving DecidableEq, Repr

instance : Addressable sample_container := ⟨sample_container.addr⟩

instance : Range sample_container := ⟨sample_container.first⟩

/-! ## GlobRef: locality, bytes of an element, interleaved compound operators -/

/-- Modelled from the spec: the team part of the communication engine,
`resolve_local_unit(teamId) → unitId`, which `dart_team_myid(teamid, &luid)` leaves
in `luid.id`: the id of the calling unit within the team `teamid`. -/
structure Teams where
  resolve_local_unit : Int → Int

/-- The member `GlobRef::is_local()`:
`dart_team_myid(_gptr.teamid, &luid); return _gptr.unitid == luid.id;`. -/
def GlobRef.is_local {V : Type} {c : Bool} (teams : Teams) (self : GlobRef V c) : Bool :=
  let luid := teams.resolve_local_unit self._gptr.teamid
  self._gptr.unitid == luid

/-- The byte address `a` is one of the `sizeof(V)` bytes of the element at `g`. -/
def in_elem (V : Type) [ObjRep V] (g a : dart_gptr_t) : Prop :=
  ∃ i, i < ObjRep.sizeof V ∧ byte_addr g i = a

/-- The memory `m` holds the value `v` at `g`: the `sizeof(V)` bytes behind `g` are
the object representation of `v`. -/
def holds {V : Type} [ObjRep V] (m : Memory) (g : dart_gptr_t) (v : V) : Prop :=
  read_bytes m g (ObjRep.sizeof V) = ObjRep.to_bytes v

instance {V : Type} [ObjRep V] (m : Memory) (g : dart_gptr_t) (v : V) :
    Decidable (holds m g v) :=
  inferInstanceAs (Decidable (read_bytes m g (ObjRep.sizeof V) = ObjRep.to_bytes v))

/-- Progress of one `r += ref` in flight on its issuing unit: not started, between
the fetch `val = operator nonconst_value_type()` and the store, holding the local
`val`, or finished. -/
inductive RmwState (V : Type) where
  | start
  | fetched (val : V)
  | done
deriving DecidableEq, Repr

/-- One unit executing `r += operand` on the reference `r`. -/
structure Issuer (V : Type) where
  r : GlobRef V false
  operand : V
  pc : RmwState V

/-- The next step of `operator+=` on its issuing unit: the blocking fetch
`val = operator nonconst_value_type()`, or `val += ref; operator=(val);` with its
blocking store. Each blocking transfer is one step. -/
def Issuer.step {V : Type} [ObjRep V] [Add V] (t : Issuer V) (m : Memory) :
    Issuer V × Memory :=
  match t.pc with
  | .start => ({ t with pc := .fetched (t.r.conv m) }, m)
  | .fetched val =>
    match t.r.assign (val + t.operand) m with
    | some res => ({ t with pc := .done }, res.2)
    | none => (t, m)
  | .done => (t, m)

/-- Two units running one `+=` each under the schedule `sched`: `false` lets the
first unit take its next step, `true` the second. -/
def run_interleaved {V : Type} [ObjRep V] [Add V] :
    List Bool → Issuer V → Issuer V → Memory → Issuer V × Issuer V × Memory
  | [], t1, t2, m => (t1, t2, m)
  | false :: sched, t1, t2, m => run_interleaved sched (t1.step m).1 t2 (t1.step m).2
  | true :: sched, t1, t2, m => run_interleaved sched t1 (t2.step m).1 (t2.step m).2

/-! ## View modifiers: locality of sub-ranges and local nodes -/

/-- The member typedef `ViewSubMod::is_local`:
`typename dash::view_traits<DomainType>::is_local`. -/
def ViewSubMod.is_local (DomainType : ViewType) : Bool :=
  (view_traits DomainType).is_local

/-- The type of a chain of `ViewSubMod`s with the dimension differences `dims`,
outermost first, over the node type `base`. -/
def sub_chain : List Int → ViewType → ViewType
  | [], base => base
  | DimDiff :: dims, base => ViewType.ViewSubMod DimDiff (sub_chain dims base)

/-- The class `ViewLocalMod<DimDiff, DomainType, IndexType>`: `addr` is the address
of the node, `_domain` the object its reference member `_domain` is bound to. -/
structure ViewLocalMod (DomainType : Type) where
  addr : ObjAddr
  _domain : DomainType
deriving DecidableEq, Repr

instance (DomainType : Type) : Addressable (ViewLocalMod DomainType) :=
  ⟨ViewLocalMod.addr⟩

/-- The constructor `ViewLocalMod(DomainType & domain)`, building the node at
address `this`. -/
def ViewLocalMod.ctor {DomainType : Type} (this : ObjAddr) (domain : DomainType) :
    ViewLocalMod DomainType :=
  { addr := this, _domain := domain }

/-- The comparison `ViewLocalMod::operator==`:
`this == &rhs || &this->_domain == &rhs._domain`. -/
def ViewLocalMod.eq {DomainType : Type} [Addressable DomainType]
    (self rhs : ViewLocalMod DomainType) : Bool :=
  self.addr == rhs.addr ||
    Addressable.addr_of self._domain == Addressable.addr_of rhs._domain

/-- The comparison `ViewLocalMod::operator!=`: `!(*this == rhs)`. -/
def ViewLocalMod.ne {DomainType : Type} [Addressable DomainType]
    (self rhs : ViewLocalMod DomainType) : Bool :=
  !(self.eq rhs)

/-! ## The algorithm `dash::equal` -/

/-- What `dash::equal` asks of the team of `first_1`: `team.myid()` and
`team.size()`. -/
structure Team where
  myid : Nat
  size : Nat
deriving DecidableEq, Repr

/-- The call `std::equal(first1, last1, first2, pred)`: `pred` holds for every
element of the first range and the element at the same position of the second,
which is at least as long. -/
def std_equal_pred {V : Type} (range1 range2 : List V) (pred : V → V → Bool) : Bool :=
  (range1.zip range2).all (fun p => pred p.1 p.2)

/-- The call `std::equal(first1, last1, first2)`, comparing with `==`. -/
def std_equal {V : Type} [DecidableEq V] (range1 range2 : List V) : Bool :=
  std_equal_pred range1 range2 (fun x y => decide (x = y))

/-- The loop `for (int u = 0; u < team.size(); u++) return_result &=
l_results.local[u];`. -/
def and_local_results (l_results_local : Nat → Bool) (size : Nat) (return_result : Bool) :
    Bool :=
  (List.range size).foldl (fun acc u => acc && l_results_local u) return_result

/-- The function `dash::equal(first_1, last_1, first_2, pred)` on one unit:
`local_1` is the local part of the range from `first_1` to `last_1` that
`dash::local_range` yields on this unit, `second` the range that starts at
`first_2`, and `l_results_local u` what the unit finds at `l_results.local[u]`
after the barrier, position 0 being where it stored its own `l_result`. -/
def equal_pred {V : Type} (team : Team) (local_1 second : List V) (pred : V → V → Bool)
    (l_results_local : Nat → Bool) : Bool :=
  let l_result := std_equal_pred local_1 second pred
  let l_results_local1 := fun u => if u = 0 then l_result else l_results_local u
  let return_result := true
  if team.myid == 0 then and_local_results l_results_local1 team.size return_result
  else return_result

/-- The function `dash::equal(first_1, last_1, first_2)` on one unit, with the same
body and `std::equal` comparing with `==`. -/
def equal {V : Type} [DecidableEq V] (team : Team) (local_1 second : List V)
    (l_results_local : Nat → Bool) : Bool :=
  let l_result := std_equal local_1 second
  let l_results_local1 := fun u => if u = 0 then l_result else l_results_local u
  let return_result := true
  if team.myid == 0 then and_local_results l_results_local1 team.size return_result
  else return_result

/-! ## GlobRef: bindings after an operation -/

namespace GlobRef

variable {V : Type} {c : Bool}

/-- The reference object after one of its operations: every member function of
`GlobRef` is `const` and `_gptr` is not `mutable`, so the object is the one before
the call. -/
def after (_op : Op V) (self : GlobRef V c) : GlobRef V c := self

/-- The reference that an operation hands back by `return *this`, when it is
well-formed, completes and returns a reference to the object it was called on. -/
def returned_ref [ObjRep V] [Add V] [Sub V] [Mul V] [CDiv V] [Xor V] [One V]
    (self : GlobRef V c) (m : Memory) : Op V → Option (GlobRef V c)
  | .assign val => (self.assign val m).map Prod.fst
  | .assign_ref other => (self.assign_ref (GlobRef.of_gptr V c other) m).map Prod.fst
  | .add_assign ref => (self.add_assign ref m).map Prod.fst
  | .sub_assign ref => (self.sub_assign ref m).map Prod.fst
  | .mul_assign ref => (self.mul_assign ref m).map Prod.fst
  | .div_assign ref => (self.div_assign ref m).map Prod.fst
  | .xor_assign ref => (self.xor_assign ref m).map Prod.fst
  | .pre_inc => (self.pre_inc m).map Prod.fst
  | .pre_dec => (self.pre_dec m).map Prod.fst
  | _ => none

/-- The member `swap(dash::GlobRef<T> & b)` with the two references as the
assignments `*this = b` and `b = tmp` return them, and the memory afterwards. -/
def swap_bindings [ObjRep V] (self b : GlobRef V c) (m : Memory) :
    Option (GlobRef V c × GlobRef V c × Memory) :=
  (static_assert (!c) ()).bind fun _ =>
    let tmp := self.conv m
    (self.assign_ref b m).bind fun r1 =>
      (b.assign tmp r1.2).bind fun r2 => some (r1.1, r2.1, r2.2)

end GlobRef

/-! # Theorems -/

/-! ## Lemmas on byte memory -/

theorem read_bytes_length (m : Memory) (g : dart_gptr_t) (n : Nat) :
    (read_bytes m g n).length = n := by
  simp [read_bytes]

theorem byte_addr_offset_sub (g : dart_gptr_t) (i : Nat) :
    byte_addr g ((byte_addr g i).offset - g.offset) = byte_addr g i := by
  simp [byte_addr]

theorem read_write_bytes_same (m : Memory) (g : dart_gptr_t) (bs : List Byte) :
    read_bytes (write_bytes m g bs) g bs.length = bs := by
  apply List.ext_getElem
  · simp [read_bytes]
  · intro i h1 h2
    simp only [read_bytes, List.getElem_map, List.getElem_range, write_bytes]
    have hc : byte_addr g ((byte_addr g i).offset - g.offset) = byte_addr g i ∧
        g.offset ≤ (byte_addr g i).offset := by
      refine ⟨byte_addr_offset_sub g i, ?_⟩
      simp [byte_addr]
    rw [if_pos hc]
    have hi : (byte_addr g i).offset - g.offset = i := by simp [byte_addr]
    rw [hi, List.getD_eq_getElem _ _ h2]

theorem get_put_blocking {V : Type} [ObjRep V] (g : dart_gptr_t) (v : V) (m : Memory) :
    (get_blocking g (put_blocking g v m) : V) = v := by
  unfold get_blocking put_blocking
  rw [← ObjRep.to_bytes_length v, read_write_bytes_same, ObjRep.of_to_bytes]

theorem read_write_bytes_disjoint (m : Memory) (g h : dart_gptr_t) (bs : List Byte) (n : Nat)
    (hd : ∀ i, i < n → ∀ j, j < bs.length → byte_addr g i ≠ byte_addr h j) :
    read_bytes (write_bytes m h bs) g n = read_bytes m g n := by
  apply List.ext_getElem
  · simp [read_bytes]
  · intro i h1 h2
    have hi : i < n := by simpa [read_bytes] using h1
    simp only [read_bytes, List.getElem_map, List.getElem_range, write_bytes]
    split
    · rename_i hc
      by_cases hj : (byte_addr g i).offset - h.offset < bs.length
      · exact absurd hc.1.symm (hd i hi _ hj)
      · rw [List.getD_eq_default _ _ (by omega)]
    · rfl

theorem get_put_blocking_disjoint {V : Type} [ObjRep V] (g h : dart_gptr_t) (v : V)
    (m : Memory) (hd : disjoint_elems V g h) :
    (get_blocking g (put_blocking h v m) : V) = get_blocking g m := by
  unfold get_blocking put_blocking
  rw [read_write_bytes_disjoint]
  intro i hi j hj
  rw [ObjRep.to_bytes_length] at hj
  exact hd i hi j hj

/-! ## Sequence algebra -/

namespace ce

theorem expand_get_range_aux {ValueT : Type} (s : List ValueT) (a : Nat) :
    ∀ (n b : Nat), a + b + n ≤ s.length →
      expand (fun i => std_get (a + i) s) (List.range' b n) =
        some ((s.drop (a + b)).take n) := by
  intro n
  induction n with
  | zero => intro b _; simp [expand]
  | succ n ih =>
    intro b h
    have hlt : a + b < s.length := by omega
    have ih1 := ih (b + 1) (by omega)
    rw [List.range'_succ, expand, ih1]
    simp only [std_get, List.getElem?_eq_getElem hlt]
    rw [List.drop_eq_getElem_cons hlt, List.take_succ_cons]
    rfl

theorem expand_get_range {ValueT : Type} (s : List ValueT) (a n : Nat)
    (h : a + n ≤ s.length) :
    expand (fun i => std_get (a + i) s) (make_index_sequence n) =
      some ((s.drop a).take n) := by
  have := expand_get_range_aux s a n 0 (by omega)
  rw [make_index_sequence, List.range_eq_range']
  simpa using this

theorem take_eq {ValueT : Type} (n : Nat) (s : List ValueT) : take n s = some (s.take n) := by
  unfold take detail.take_impl
  have h := expand_get_range s 0 (take_size n s.length) (by unfold take_size; split <;> omega)
  simp only [Nat.zero_add, List.drop_zero] at h
  rw [h]
  unfold take_size
  split
  · rw [List.take_of_length_le (le_refl _), List.take_of_length_le (by omega)]
  · rfl

theorem drop_eq {ValueT : Type} (n : Nat) (s : List ValueT) : drop n s = some (s.drop n) := by
  unfold drop detail.drop_impl
  by_cases hn : n > s.length
  · have hz : drop_size n s.length = 0 := by simp [drop_size, hn]
    rw [hz, List.drop_of_length_le (by omega)]
    rfl
  · have hz : drop_size n s.length = s.length - n := by simp [drop_size, hn]
    rw [hz, expand_get_range s n (s.length - n) (by omega)]
    rw [List.take_of_length_le (by simp)]

theorem append_eq {ValueT : Type} (l r : List ValueT) : append l r = some (l ++ r) := by
  unfold append detail.append_impl
  have hl := expand_get_range l 0 l.length (by omega)
  have hr := expand_get_range r 0 r.length (by omega)
  simp only [Nat.zero_add, List.drop_zero, List.take_length] at hl hr
  rw [hl, hr]

/-- C2: for every sequence `s` and every `k` with `k ≤ length s`,
`append(take<k>(s), drop<k>(s))` is well-formed and equals `s`; and
`split<k, N-k>` built over `s` is well-formed, its `left()` is `take<k>(s)`, its
`right()` is `drop<k>(s)`, and `append(left(), right())` equals `s`. -/
theorem split_append_inverse {ValueT : Type} (s : List ValueT) (k : Nat)
    (hk : k ≤ s.length) :
    ((take k s).bind fun l => (drop k s).bind fun r => append l r) = some s ∧
    ∃ sp, split.of_array k (s.length - k) s = some sp ∧
      sp.left = take k s ∧ sp.right = drop k s ∧
      (sp.left.bind fun l => sp.right.bind fun r => append l r) = some s := by
  have h1 : ((take k s).bind fun l => (drop k s).bind fun r => append l r) = some s := by
    rw [take_eq, drop_eq]
    simp [append_eq]
  refine ⟨h1, ⟨k, s.length - k, s⟩, ?_, rfl, rfl, h1⟩
  unfold split.of_array
  rw [if_pos (by omega)]

/-- Witness for C2: the sequence 1, 2, 3, 4 split behind its second element. -/
theorem split_append_inverse_witness :
    (2 ≤ [1, 2, 3, 4].length) ∧
    ((take 2 [1, 2, 3, 4]).bind fun l => (drop 2 [1, 2, 3, 4]).bind fun r => append l r) =
      some [1, 2, 3, 4] ∧
    ∃ sp, split.of_array 2 ([1, 2, 3, 4].length - 2) [1, 2, 3, 4] = some sp ∧
      sp.left = take 2 [1, 2, 3, 4] ∧ sp.right = drop 2 [1, 2, 3, 4] ∧
      (sp.left.bind fun l => sp.right.bind fun r => append l r) = some [1, 2, 3, 4] :=
  ⟨by decide, split_append_inverse [1, 2, 3, 4] 2 (by decide)⟩

theorem append_elem_eq {ValueT : Type} (l : List ValueT) (e : ValueT) :
    append_elem l e = some (l ++ [e]) := by
  unfold append_elem detail.append_impl
  have hl := expand_get_range l 0 l.length (by omega)
  have hr := expand_get_range [e] 0 1 (by simp)
  simp only [Nat.zero_add, List.drop_zero, List.take_length] at hl hr
  rw [hl, hr]
  rfl

theorem reverse_inst_eq {ValueT : Type} :
    ∀ (s : List ValueT), reverse_inst s.length s = some s.reverse := by
  intro s
  induction s with
  | nil => rw [reverse_inst]; simp
  | cons x rest ih =>
    rw [reverse_inst]
    by_cases h : (x :: rest).length > 1
    · have hs : drop_size 1 (x :: rest).length = rest.length := by
        simp [drop_size]
      rw [dif_pos h, hs, tail, head, drop_eq, take_eq]
      simp [ih, append_eq]
    · rw [dif_neg h]
      have hr : rest = [] := by
        cases rest with
        | nil => rfl
        | cons y ys => simp at h
      simp [hr]

theorem reverse_eq {ValueT : Type} (s : List ValueT) : reverse s = some s.reverse :=
  reverse_inst_eq s

theorem replace_nth_eq {ValueT : Type} (i : Nat) (v : ValueT) (s : List ValueT)
    (h : i < s.length) : replace_nth i v s = some (s.set i v) := by
  unfold replace_nth
  rw [take_eq, drop_eq]
  simp only [Option.some_bind, append_elem_eq, append_eq]
  have hset : s.take i ++ [v] ++ s.drop (i + 1) = s.set i v := by
    rw [List.set_eq_take_append_cons_drop, if_pos h]
    simp
  rw [hset, if_pos (by simp)]

/-- C13: for every sequence `s` and every `n`, `take<n>(s)` is well-formed, every
index of its pack is within the bounds of `s`, the result has length
`min n (length s)` and agrees with `s` at every position below that length; it is
`s` itself when `n` is at least the length of `s`; and `take<2>` of 1, 2, 3, 4 is
1, 2. -/
theorem take_spec {ValueT : Type} (n : Nat) (s : List ValueT) :
    (∀ i ∈ make_index_sequence (take_size n s.length), i < s.length) ∧
    (∃ t, take n s = some t ∧ t.length = min n s.length ∧
      (∀ i, i < min n s.length → t[i]? = s[i]?) ∧
      (s.length ≤ n → t = s)) ∧
    take 2 [1, 2, 3, 4] = some [1, 2] := by
  refine ⟨?_, ⟨s.take n, take_eq n s, by simp, ?_, ?_⟩, by rw [take_eq]; rfl⟩
  · intro i hi
    simp only [make_index_sequence, List.mem_range, take_size] at hi
    split at hi <;> omega
  · intro i hi
    exact List.getElem?_take_of_lt (by omega)
  · intro hn
    exact List.take_of_length_le hn

/-- Witness for C13: `take<3>` of the sequence 5, 6. -/
theorem take_spec_witness :
    (∀ i ∈ make_index_sequence (take_size 3 [5, 6].length), i < [5, 6].length) ∧
    (∃ t, take 3 [5, 6] = some t ∧ t.length = min 3 [5, 6].length ∧
      (∀ i, i < min 3 [5, 6].length → t[i]? = [5, 6][i]?) ∧
      ([5, 6].length ≤ 3 → t = [5, 6])) :=
  ⟨(take_spec 3 [5, 6]).1, (take_spec 3 [5, 6]).2.1⟩

/-- C14: for every sequence `s` and every `n`, `drop<n>(s)` is well-formed, every
index `n + i` of its pack is within the bounds of `s`, the result has length
`length s - min n (length s)` and its position `i` holds `s[n + i]` for every `i`
below that length; it is empty when `n` is at least the length of `s`; and
`drop<2>` of 1, 2, 3, 4 is 3, 4. -/
theorem drop_spec {ValueT : Type} (n : Nat) (s : List ValueT) :
    (∀ i ∈ make_index_sequence (drop_size n s.length), n + i < s.length) ∧
    (∃ t, drop n s = some t ∧ t.length = s.length - min n s.length ∧
      (∀ i, i < s.length - min n s.length → t[i]? = s[n + i]?) ∧
      (s.length ≤ n → t = [])) ∧
    drop 2 [1, 2, 3, 4] = some [3, 4] := by
  refine ⟨?_, ⟨s.drop n, drop_eq n s, ?_, ?_, ?_⟩, by rw [drop_eq]; rfl⟩
  · intro i hi
    simp only [make_index_sequence, List.mem_range, drop_size] at hi
    split at hi <;> omega
  · simp only [List.length_drop]
    omega
  · intro i _
    exact List.getElem?_drop s n i
  · intro hn
    exact List.drop_of_length_le hn

/-- Witness for C14: `drop<1>` and `drop<3>` of the sequence 5, 6. -/
theorem drop_spec_witness :
    (∀ i ∈ make_index_sequence (drop_size 1 [5, 6].length), 1 + i < [5, 6].length) ∧
    (∃ t, drop 3 [5, 6] = some t ∧ t.length = [5, 6].length - min 3 [5, 6].length ∧
      (∀ i, i < [5, 6].length - min 3 [5, 6].length → t[i]? = [5, 6][3 + i]?) ∧
      ([5, 6].length ≤ 3 → t = [])) :=
  ⟨(drop_spec 1 [5, 6]).1, (drop_spec 3 [5, 6]).2.1⟩

/-- C15: for every sequence `s`, of length 0 and 1 too, `reverse(s)` returns a
result (the recursion over the static length ends and every access is in bounds),
the result has the length of `s`, and its position `i` holds `s[N - 1 - i]` for
every `i < N`; and `reverse` of 1, 2, 3 is 3, 2, 1. -/
theorem reverse_spec {ValueT : Type} (s : List ValueT) :
    (∃ t, reverse s = some t ∧ t.length = s.length ∧
      (∀ i, i < s.length → t[i]? = s[s.length - 1 - i]?)) ∧
    reverse ([] : List ValueT) = some [] ∧
    (∀ x : ValueT, reverse [x] = some [x]) ∧
    reverse [1, 2, 3] = some [3, 2, 1] := by
  refine ⟨⟨s.reverse, reverse_eq s, by simp, ?_⟩, by rw [reverse_eq]; rfl, ?_,
    by rw [reverse_eq]; rfl⟩
  · intro i hi
    exact List.getElem?_reverse hi
  · intro x
    rw [reverse_eq]
    rfl

/-- Witness for C15: the sequence 4, 5, 6, 7. -/
theorem reverse_spec_witness :
    ∃ t, reverse [4, 5, 6, 7] = some t ∧ t.length = [4, 5, 6, 7].length ∧
      (∀ i, i < [4, 5, 6, 7].length → t[i]? = [4, 5, 6, 7][[4, 5, 6, 7].length - 1 - i]?) :=
  (reverse_spec [4, 5, 6, 7]).1

/-- C16: for every sequence `s`, every index `i` below its length and every value
`v`, `replace_nth<i>(v, s)` is well-formed, has the length of `s`, holds `v` at
index `i` and `s[j]` at every other index `j`; and `replace_nth<1>(9, s)` of
1, 2, 3 is 1, 9, 3. -/
theorem replace_nth_spec {ValueT : Type} (i : Nat) (v : ValueT) (s : List ValueT)
    (h : i < s.length) :
    (∃ t, replace_nth i v s = some t ∧ t.length = s.length ∧ t[i]? = some v ∧
      (∀ j, j ≠ i → t[j]? = s[j]?)) ∧
    replace_nth 1 9 [1, 2, 3] = some [1, 9, 3] := by
  refine ⟨⟨s.set i v, replace_nth_eq i v s h, by simp, ?_, ?_⟩, ?_⟩
  · exact List.getElem?_set_self h
  · intro j hj
    exact List.getElem?_set_ne (Ne.symm hj)
  · rw [replace_nth_eq 1 9 [1, 2, 3] (by decide)]
    rfl

/-- Witness for C16: the last element of 4, 5, 6 replaced by 0. -/
theorem replace_nth_spec_witness :
    2 < [4, 5, 6].length ∧
    ∃ t, replace_nth 2 0 [4, 5, 6] = some t ∧ t.length = [4, 5, 6].length ∧
      t[2]? = some 0 ∧ (∀ j, j ≠ 2 → t[j]? = [4, 5, 6][j]?) :=
  ⟨by decide, (replace_nth_spec 2 0 [4, 5, 6] (by decide)).1⟩

end ce

/-! ## GlobRef: reads and writes -/

theorem read_bytes_write_all (g : dart_gptr_t) (n : Nat) :
    ∀ (ws : List (dart_gptr_t × List Byte)) (m : Memory),
      (∀ w ∈ ws, ∀ i, i < n → ∀ j, j < w.2.length → byte_addr g i ≠ byte_addr w.1 j) →
      read_bytes (write_all m ws) g n = read_bytes m g n := by
  intro ws
  induction ws with
  | nil => intro m _; rfl
  | cons w ws ih =>
    intro m h
    have h1 := ih (write_bytes m w.1 w.2) (fun x hx => h x (List.mem_cons_of_mem _ hx))
    have h2 := read_write_bytes_disjoint m g w.1 w.2 n (h w (List.mem_cons_self _ _))
    simpa [write_all, List.foldl_cons, h2] using h1

theorem get_blocking_write_all {V : Type} [ObjRep V] (g : dart_gptr_t) (m : Memory)
    (ws : List (dart_gptr_t × List Byte)) (h : no_write_to V g ws) :
    (get_blocking g (write_all m ws) : V) = get_blocking g m := by
  unfold get_blocking
  rw [read_bytes_write_all g _ ws m h]

/-- C1: after `set(v)`, `put(v)` by reference or `put(&v)` by pointer through a
non-const `GlobRef`, the call is well-formed, and as long as the writes `ws` that
follow touch no byte of the element, `get()` on any `GlobRef` (const or not) bound to
the same address returns `v`. -/
theorem GlobRef_put_get_roundtrip {V : Type} [ObjRep V] (r : GlobRef V false) (v : V)
    (m : Memory) (c2 : Bool) (ws : List (dart_gptr_t × List Byte))
    (hws : no_write_to V r.dart_gptr ws) :
    (∃ m1, r.set v m = some m1 ∧
      (GlobRef.of_gptr V c2 r.dart_gptr).get (write_all m1 ws) = v) ∧
    (∃ m1, r.put v m = some m1 ∧
      (GlobRef.of_gptr V c2 r.dart_gptr).get (write_all m1 ws) = v) ∧
    (∃ m1, r.put_ptr v m = some m1 ∧
      (GlobRef.of_gptr V c2 r.dart_gptr).get (write_all m1 ws) = v) := by
  have key : (get_blocking r._gptr (write_all (put_blocking r._gptr v m) ws) : V) = v := by
    rw [get_blocking_write_all r._gptr _ ws hws, get_put_blocking]
  exact ⟨⟨_, rfl, key⟩, ⟨_, rfl, key⟩, ⟨_, rfl, key⟩⟩

/-- Witness for C1: the pair (7, 9) is stored at offset 0 of the sample memory, then
the bytes 5, 5 are written at offset 2 and the byte 6 at offset 0 of another unit. -/
theorem GlobRef_put_get_roundtrip_witness :
    no_write_to byte_pair (sample_gptr 0)
      [(sample_gptr 2, [5, 5]), ({ sample_gptr 0 with unitid := 1 }, [6])] ∧
    ∃ m1, (GlobRef.of_gptr byte_pair false (sample_gptr 0)).set ⟨7, 9⟩ sample_memory =
        some m1 ∧
      (GlobRef.of_gptr byte_pair true (sample_gptr 0)).get
        (write_all m1 [(sample_gptr 2, [5, 5]), ({ sample_gptr 0 with unitid := 1 }, [6])]) =
        ⟨7, 9⟩ :=
  ⟨by decide,
   (GlobRef_put_get_roundtrip (GlobRef.of_gptr byte_pair false (sample_gptr 0)) ⟨7, 9⟩
      sample_memory true
      [(sample_gptr 2, [5, 5]), ({ sample_gptr 0 with unitid := 1 }, [6])] (by decide)).1⟩

theorem GlobRef_swap_eq {V : Type} [ObjRep V] (a b : GlobRef V false) (m : Memory) :
    a.swap b m =
      some (put_blocking b._gptr (a.get m) (put_blocking a._gptr (b.get m) m)) := rfl

/-- Two different elements of one array of `V` share no byte: the elements with the
indices `i` and `j` behind the base address `g` lie `i * sizeof(V)` and
`j * sizeof(V)` bytes behind it. -/
theorem array_elems_disjoint (V : Type) [ObjRep V] (g : dart_gptr_t) (i j : Nat)
    (hij : i ≠ j) :
    disjoint_elems V (byte_addr g (i * ObjRep.sizeof V)) (byte_addr g (j * ObjRep.sizeof V)) := by
  intro k hk l hl h
  have ho : g.offset + i * ObjRep.sizeof V + k = g.offset + j * ObjRep.sizeof V + l :=
    congrArg dart_gptr_t.offset h
  rcases Nat.lt_or_gt_of_ne hij with hlt | hgt
  · have hmul : (i + 1) * ObjRep.sizeof V ≤ j * ObjRep.sizeof V :=
      Nat.mul_le_mul_right _ hlt
    rw [Nat.add_mul, Nat.one_mul] at hmul
    omega
  · have hmul : (j + 1) * ObjRep.sizeof V ≤ i * ObjRep.sizeof V :=
      Nat.mul_le_mul_right _ hgt
    rw [Nat.add_mul, Nat.one_mul] at hmul
    omega

/-- Elements on different units, in different segments or of different teams share
no byte. -/
theorem other_segment_elems_disjoint (V : Type) [ObjRep V] (a b : dart_gptr_t)
    (h : a.unitid ≠ b.unitid ∨ a.segid ≠ b.segid ∨ a.teamid ≠ b.teamid) :
    disjoint_elems V a b := by
  intro k _ l _ he
  have hu : (byte_addr a k).unitid = (byte_addr b l).unitid := by rw [he]
  have hs : (byte_addr a k).segid = (byte_addr b l).segid := by rw [he]
  have ht : (byte_addr a k).teamid = (byte_addr b l).teamid := by rw [he]
  rcases h with h | h | h
  · exact h hu
  · exact h hs
  · exact h ht

/-- C3: for two non-const references bound to two distinct elements, which as
distinct objects of the element type share no byte (two different elements of one
array, or elements in different segments or on different units), the member `swap`
and the free function `swap` are well-formed and leave the first element holding
the old value of the second and the second holding the old value of the first. -/
theorem GlobRef_swap_disjoint {V : Type} [ObjRep V] (a b : GlobRef V false) (m : Memory)
    (hd : disjoint_elems V a.dart_gptr b.dart_gptr) :
    ∃ m1, a.swap b m = some m1 ∧ swap a b m = some m1 ∧
      a.get m1 = b.get m ∧ b.get m1 = a.get m := by
  refine ⟨_, GlobRef_swap_eq a b m, GlobRef_swap_eq a b m, ?_, ?_⟩
  · show get_blocking a._gptr _ = _
    have hd1 : disjoint_elems V a._gptr b._gptr := hd
    rw [get_put_blocking_disjoint _ _ _ _ hd1, get_put_blocking]
  · exact get_put_blocking _ _ _

/-- Witness for C3: the two `byte_pair` elements at offsets 0 and 2, holding (1, 2)
and (3, 4). -/
theorem GlobRef_swap_disjoint_witness :
    disjoint_elems byte_pair (sample_gptr 0) (sample_gptr 2) ∧
    ∃ m1, (GlobRef.of_gptr byte_pair false (sample_gptr 0)).swap
        (GlobRef.of_gptr byte_pair false (sample_gptr 2)) sample_memory = some m1 ∧
      swap (GlobRef.of_gptr byte_pair false (sample_gptr 0))
        (GlobRef.of_gptr byte_pair false (sample_gptr 2)) sample_memory = some m1 ∧
      (GlobRef.of_gptr byte_pair false (sample_gptr 0)).get m1 =
        (GlobRef.of_gptr byte_pair false (sample_gptr 2)).get sample_memory ∧
      (GlobRef.of_gptr byte_pair false (sample_gptr 2)).get m1 =
        (GlobRef.of_gptr byte_pair false (sample_gptr 0)).get sample_memory :=
  ⟨by decide, GlobRef_swap_disjoint _ _ sample_memory (by decide)⟩

/-- C7: `r1 == r2` holds exactly when the values fetched from the two addresses are
equal, whatever the two addresses are; `r == v` holds exactly when the value
fetched from the address of `r` equals `v`; and `!=` negates `==` in both forms. -/
theorem GlobRef_eq_value_semantics {V : Type} [ObjRep V] [DecidableEq V] {c1 c2 : Bool}
    (r1 : GlobRef V c1) (r2 : GlobRef V c2) (v : V) (m : Memory) :
    (r1.eq_ref r2 m = true ↔ r1.get m = r2.get m) ∧
    (r1.eq_value v m = true ↔ r1.get m = v) ∧
    r1.ne_ref r2 m = !(r1.eq_ref r2 m) ∧
    r1.ne_value v m = !(r1.eq_value v m) := by
  refine ⟨?_, ?_, rfl, rfl⟩
  · simp [GlobRef.eq_ref, GlobRef.eq_value, GlobRef.conv, GlobRef.get]
  · simp [GlobRef.eq_value, GlobRef.conv, GlobRef.get]

/-- Two references to the different bytes at offsets 0 and 256 of the sample memory
both hold the byte 1 and compare equal. -/
theorem GlobRef_eq_different_addresses :
    (GlobRef.of_gptr Byte false (sample_gptr 0)).dart_gptr ≠
      (GlobRef.of_gptr Byte true (sample_gptr 256)).dart_gptr ∧
    (GlobRef.of_gptr Byte false (sample_gptr 0)).eq_ref
      (GlobRef.of_gptr Byte true (sample_gptr 256)) sample_memory = true := by
  decide

/-! ## View modifiers -/

/-- C4: `a == b` on two `ViewSubMod` nodes holds exactly when they are the same
object or their domain references denote the same object and their begin and end
offsets agree; two nodes with bounds 2 and 5 over the same domain object compare
equal; two distinct nodes with identical bounds over two distinct domain objects
compare unequal; and `!=` negates `==`. -/
theorem ViewSubMod_eq_identity {DomainType : Type} [Addressable DomainType]
    (a b : ViewSubMod DomainType) :
    (a.eq b = true ↔
      (a.addr = b.addr ∨
        (Addressable.addr_of a._domain = Addressable.addr_of b._domain ∧
          a._begin = b._begin ∧ a._end = b._end))) ∧
    (∀ (d : DomainType) (p q : ObjAddr),
      (ViewSubMod.ctor p d 2 5).eq (ViewSubMod.ctor q d 2 5) = true) ∧
    (∀ (d1 d2 : DomainType) (p q : ObjAddr) (lo hi : index_t), p ≠ q →
      Addressable.addr_of d1 ≠ Addressable.addr_of d2 →
      (ViewSubMod.ctor p d1 lo hi).eq (ViewSubMod.ctor q d2 lo hi) = false) ∧
    a.ne b = !(a.eq b) := by
  refine ⟨?_, ?_, ?_, rfl⟩
  · simp [ViewSubMod.eq, and_assoc]
  · intro d p q
    simp [ViewSubMod.eq, ViewSubMod.ctor]
  · intro d1 d2 p q lo hi hpq hd
    simp [ViewSubMod.eq, ViewSubMod.ctor, hpq, hd]

/-- Witness for C4: two nodes at addresses 10 and 11 over the origins at addresses
1 and 2. -/
theorem ViewSubMod_eq_identity_witness :
    (ViewSubMod.ctor 10 (ViewOrigin.mk 1) 2 5).eq (ViewSubMod.ctor 11 (ViewOrigin.mk 1) 2 5)
      = true ∧
    (ViewSubMod.ctor 10 (ViewOrigin.mk 1) 2 5).eq (ViewSubMod.ctor 11 (ViewOrigin.mk 2) 2 5)
      = false :=
  ⟨(ViewSubMod_eq_identity (ViewSubMod.ctor 10 (ViewOrigin.mk 1) 2 5)
      (ViewSubMod.ctor 11 (ViewOrigin.mk 1) 2 5)).2.1 (ViewOrigin.mk 1) 10 11,
   (ViewSubMod_eq_identity (ViewSubMod.ctor 10 (ViewOrigin.mk 1) 2 5)
      (ViewSubMod.ctor 11 (ViewOrigin.mk 1) 2 5)).2.2.1 (ViewOrigin.mk 1) (ViewOrigin.mk 2)
      10 11 2 5 (by decide) (by decide)⟩

/-- C5 (evaluation): over the evenly blocked pattern on 16 indices and 4 units,
`LocalMod` over `SubMod(domain, 1, 3)` yields the local range from 1 to 3 on unit 0,
but on each of the units 1, 2 and 3, whose resident indices do not meet the
sub-range, it yields begin 0 and end 3, which is not an empty range. -/
theorem local_of_sub_no_overlap_not_empty :
    ((local_of_sub_16_4 0 1 3).begin_ = 1 ∧ (local_of_sub_16_4 0 1 3).end_ = 3) ∧
    ((local_of_sub_16_4 1 1 3).begin_ = 0 ∧ (local_of_sub_16_4 1 1 3).end_ = 3) ∧
    ((local_of_sub_16_4 2 1 3).begin_ = 0 ∧ (local_of_sub_16_4 2 1 3).end_ = 3) ∧
    ((local_of_sub_16_4 3 1 3).begin_ = 0 ∧ (local_of_sub_16_4 3 1 3).end_ = 3) ∧
    (local_of_sub_16_4 1 1 3).begin_ ≠ (local_of_sub_16_4 1 1 3).end_ := by
  decide

/-- C6 (counterexample): the constructor accepts the bounds 5 and 2 and yields a
node that violates `0 ≤ begin ≤ end`; it also accepts a negative begin. -/
theorem ViewSubMod_ctor_invariant_counterexample :
    ¬ (ViewSubMod.ctor 10 (ViewOrigin.mk 1) 5 2).invariant ∧
    ¬ (ViewSubMod.ctor 10 (ViewOrigin.mk 1) (-1) 3).invariant := by
  decide

/-- C6 (amended): the constructor stores its bounds unchecked, so the node it yields
satisfies `0 ≤ begin ≤ end` exactly when the arguments do; and after any sequence of
member function calls the node satisfies the invariant exactly when it did before. -/
theorem ViewSubMod_invariant_iff_args {DomainType : Type} (this : ObjAddr)
    (domain : DomainType) (begin_ end_ : index_t)
    (calls : List (ViewSubMod.Call DomainType)) :
    ((ViewSubMod.ctor this domain begin_ end_).invariant ↔ (0 ≤ begin_ ∧ begin_ ≤ end_)) ∧
    ((calls.foldl (fun node call => ViewSubMod.after call node)
        (ViewSubMod.ctor this domain begin_ end_)).invariant ↔
      (0 ≤ begin_ ∧ begin_ ≤ end_)) := by
  have hfold : ∀ (cs : List (ViewSubMod.Call DomainType)) (node : ViewSubMod DomainType),
      cs.foldl (fun node call => ViewSubMod.after call node) node = node := by
    intro cs
    induction cs with
    | nil => intro node; rfl
    | cons call cs ih => intro node; simp [ViewSubMod.after]
  rw [hfold]
  exact ⟨Iff.rfl, Iff.rfl⟩


/-! ## GlobRef: members and conversions -/

theorem read_bytes_drop_take (m : Memory) (g : dart_gptr_t) (n k f : Nat) (h : k + f ≤ n) :
    ((read_bytes m g n).drop k).take f = read_bytes m (byte_addr g k) f := by
  apply List.ext_getElem
  · simp [read_bytes]; omega
  · intro i h1 h2
    simp [read_bytes, byte_addr, Nat.add_assoc]

theorem GlobRef_member_ok (E : Engine) {V : Type} {c : Bool} (MEMTYPE : CType)
    (r : GlobRef V c) (k : Nat)
    (r1 : GlobRef MEMTYPE.base (add_const_from_type ⟨V, c⟩ MEMTYPE).is_const)
    (h : r.member E MEMTYPE k = .ok r1) : r1._gptr = byte_addr r._gptr k := by
  unfold GlobRef.member dart_gptr_incaddr at h
  by_cases hc : (E.in_segment r._gptr k && decide (r._gptr.offset + k < 2 ^ 64)) = true
  · simp only [hc, if_true] at h
    cases h
    rfl
  · simp only [hc] at h
    cases h

/-- The member constness of `member<MEMTYPE>(offs)`: const exactly when `T` or
`MEMTYPE` is const. -/
theorem add_const_from_type_is_const (T MEMTYPE : CType) :
    (add_const_from_type T MEMTYPE).is_const = (T.is_const || MEMTYPE.is_const) := by
  unfold add_const_from_type add_const
  cases T.is_const <;> simp

/-- The member constness of `member(const MEMTYPE P::*mem)`: const exactly when `T`
is const. -/
theorem member_ptr_is_const (T : CType) (mem : MemberPtr) :
    (add_const_from_type T (deduce_MEMTYPE mem)).is_const = T.is_const := by
  unfold add_const_from_type add_const deduce_MEMTYPE remove_const
  cases T.is_const <;> simp

/-- C8 (evaluation): on a non-const `GlobRef<byte_pair>`, `member<const unsigned
char>(1)` yields a reference to a const value type, while `member(mem)` with a
pointer to a data member declared `const unsigned char` at the same offset yields a
reference to a non-const value type, through which `set` is well-formed. -/
theorem member_ptr_drops_member_const :
    (∃ r1, (GlobRef.of_gptr byte_pair false (sample_gptr 0)).member sample_engine
        ⟨Byte, true⟩ 1 = .ok r1 ∧ r1.value_type_is_const = true) ∧
    (∃ r2, (GlobRef.of_gptr byte_pair false (sample_gptr 0)).member_ptr sample_engine
        ⟨⟨Byte, true⟩, 1⟩ = .ok r2 ∧ r2.value_type_is_const = false ∧
        (r2.set 7 sample_memory).isSome = true) :=
  ⟨⟨_, rfl, rfl⟩, ⟨_, rfl, rfl, rfl⟩⟩

/-- C9: when the engine accepts the byte offset `k`, `member<MEMTYPE>(k)` yields a
reference whose address has the unit id, flags, segment id and team id of the
address of `r` and the byte offset `r.offset + k`; and for a class with a field at
byte offset `k`, `get()` on the result returns that field of the value that `get()`
on `r` returns. -/
theorem GlobRef_member_projection (E : Engine) {S : Type} {c : Bool} [ObjRep S]
    (MEMTYPE : CType) [ObjRep MEMTYPE.base] (r : GlobRef S c) (k : Nat)
    (r1 : GlobRef MEMTYPE.base (add_const_from_type ⟨S, c⟩ MEMTYPE).is_const)
    (h : r.member E MEMTYPE k = .ok r1) :
    r1.dart_gptr.unitid = r.dart_gptr.unitid ∧
    r1.dart_gptr.flags = r.dart_gptr.flags ∧
    r1.dart_gptr.segid = r.dart_gptr.segid ∧
    r1.dart_gptr.teamid = r.dart_gptr.teamid ∧
    r1.dart_gptr.offset = r.dart_gptr.offset + k ∧
    ∀ (proj : S → MEMTYPE.base) (m : Memory), FieldAt S MEMTYPE.base k proj →
      r1.get m = proj (r.get m) := by
  have hg := GlobRef_member_ok E MEMTYPE r k r1 h
  refine ⟨?_, ?_, ?_, ?_, ?_, ?_⟩
  · simp [GlobRef.dart_gptr, hg, byte_addr]
  · simp [GlobRef.dart_gptr, hg, byte_addr]
  · simp [GlobRef.dart_gptr, hg, byte_addr]
  · simp [GlobRef.dart_gptr, hg, byte_addr]
  · simp [GlobRef.dart_gptr, hg, byte_addr]
  · intro proj m hf
    unfold GlobRef.get get_blocking
    rw [hf.raw_read _ (read_bytes_length _ _ _), read_bytes_drop_take _ _ _ _ _ hf.inside, hg]

theorem byte_pair_second_at_1 : FieldAt byte_pair Byte 1 byte_pair.second := by
  refine ⟨by decide, ?_⟩
  intro bs hbs
  match bs, hbs with
  | [x, y], _ => rfl

/-- Witness for C9: the field `second` at byte offset 1 of a `byte_pair` stored at
offset 0 of the sample memory. -/
theorem GlobRef_member_projection_witness :
    (GlobRef.of_gptr byte_pair false (sample_gptr 0)).member sample_engine ⟨Byte, false⟩ 1 =
      .ok (GlobRef.of_gptr Byte false (sample_gptr 1)) ∧
    (GlobRef.of_gptr Byte false (sample_gptr 1)).dart_gptr.offset =
      (GlobRef.of_gptr byte_pair false (sample_gptr 0)).dart_gptr.offset + 1 ∧
    (GlobRef.of_gptr Byte false (sample_gptr 1)).get sample_memory =
      byte_pair.second ((GlobRef.of_gptr byte_pair false (sample_gptr 0)).get sample_memory) :=
  ⟨rfl,
   (GlobRef_member_projection sample_engine ⟨Byte, false⟩
      (GlobRef.of_gptr byte_pair false (sample_gptr 0)) 1
      (GlobRef.of_gptr Byte false (sample_gptr 1)) rfl).2.2.2.2.1,
   (GlobRef_member_projection sample_engine ⟨Byte, false⟩
      (GlobRef.of_gptr byte_pair false (sample_gptr 0)) 1
      (GlobRef.of_gptr Byte false (sample_gptr 1)) rfl).2.2.2.2.2
      byte_pair.second sample_memory byte_pair_second_at_1⟩

/-- The rows of the conversion table that the constructors reproduce: from an
lvalue, non-const to non-const and non-const to const are implicit conversions and
const to non-const is an explicit conversion only; from an rvalue, const to const
goes through the move constructor; each binds the new reference to the address of
the source. -/
theorem GlobRef_construct_table {V : Type} (g : dart_gptr_t) (cat : ValueCategory) :
    (GlobRef.of_gptr V false g).construct false ValueCategory.lvalue
      Initialization.copy_init = some (GlobRef.of_gptr V false g) ∧
    (GlobRef.of_gptr V false g).construct true cat Initialization.copy_init =
      some (GlobRef.of_gptr V true g) ∧
    (GlobRef.of_gptr V true g).construct false cat Initialization.copy_init = none ∧
    (GlobRef.of_gptr V true g).construct false cat Initialization.direct_init =
      some (GlobRef.of_gptr V false g) ∧
    (GlobRef.of_gptr V true g).construct true ValueCategory.rvalue
      Initialization.copy_init = some (GlobRef.of_gptr V true g) := by
  cases cat <;> refine ⟨rfl, rfl, rfl, rfl, rfl⟩

/-- C10 (evaluation): for a const source and a const target the implicit template
constructor is enabled, yet initialising a `GlobRef<const T>` from an lvalue of type
`GlobRef<const T>` is ill-formed, in copy- and in direct-initialisation: overload
resolution selects the implicitly declared copy constructor, which is deleted. -/
theorem GlobRef_const_to_const_copy_deleted :
    enable_implicit_copy_ctor ⟨Byte, true⟩ ⟨Byte, true⟩ = true ∧
    select_ctor (viable_ctors Byte true true ValueCategory.lvalue Initialization.copy_init) =
      some ⟨Ctor.implicit_copy, false, false, true, false⟩ ∧
    (GlobRef.of_gptr Byte true (sample_gptr 0)).construct true ValueCategory.lvalue
      Initialization.copy_init = none ∧
    (GlobRef.of_gptr Byte true (sample_gptr 0)).construct true ValueCategory.lvalue
      Initialization.direct_init = none := by
  refine ⟨rfl, rfl, rfl, rfl⟩


/-! ## GlobRef: const references and read entry points -/

/-- C11: on a reference to a const-qualified value type, `set`, both `put`
overloads, value and reference assignment, the compound operators `+=`, `-=`, `*=`,
`/=`, `^=`, prefix and postfix `++` and `--`, the member `swap` and the free
function `swap` are all ill-formed; hence every mutating operation is rejected and
an operation that is well-formed on such a reference leaves global memory as it
was. -/
theorem GlobRef_const_rejects_mutation {V : Type} [ObjRep V] [Add V] [Sub V] [Mul V]
    [CDiv V] [Xor V] [One V] (r b : GlobRef V true) (v : V) (m : Memory) :
    r.set v m = none ∧ r.put v m = none ∧ r.put_ptr v m = none ∧
    r.assign v m = none ∧ r.assign_ref b m = none ∧
    r.add_assign v m = none ∧ r.sub_assign v m = none ∧ r.mul_assign v m = none ∧
    r.div_assign v m = none ∧ r.xor_assign v m = none ∧
    r.pre_inc m = none ∧ r.post_inc m = none ∧ r.pre_dec m = none ∧ r.post_dec m = none ∧
    r.swap b m = none ∧ swap r b m = none ∧
    (∀ op : GlobRef.Op V, op.mutating = true → r.exec m op = none) ∧
    (∀ (op : GlobRef.Op V) (m1 : Memory), r.exec m op = some m1 → m1 = m) := by
  refine ⟨rfl, rfl, rfl, rfl, rfl, rfl, rfl, rfl, rfl, rfl, rfl, rfl, rfl, rfl, rfl, rfl,
    ?_, ?_⟩
  · intro op hop
    cases op <;> first | rfl | simp [GlobRef.Op.mutating] at hop
  · intro op m1 h
    cases op <;> first | exact (Option.some.inj h).symm | exact absurd h (by
      show ¬ ((none : Option Memory) = some m1)
      simp)

/-- Witness for C11: a const reference to the byte at offset 0 of the sample memory;
`+=` is rejected and the well-formed `get()` leaves the memory alone. -/
theorem GlobRef_const_rejects_mutation_witness :
    (GlobRef.of_gptr Byte true (sample_gptr 0)).exec sample_memory (GlobRef.Op.add_assign 1)
      = none ∧
    ∀ m1, (GlobRef.of_gptr Byte true (sample_gptr 0)).exec sample_memory GlobRef.Op.get
      = some m1 → m1 = sample_memory :=
  ⟨(GlobRef_const_rejects_mutation (GlobRef.of_gptr Byte true (sample_gptr 0))
      (GlobRef.of_gptr Byte true (sample_gptr 1)) 0 sample_memory).2.2.2.2.2.2.2.2.2.2.2.2.2.2.2.2.1
      (GlobRef.Op.add_assign 1) rfl,
   (GlobRef_const_rejects_mutation (GlobRef.of_gptr Byte true (sample_gptr 0))
      (GlobRef.of_gptr Byte true (sample_gptr 1)) 0 sample_memory).2.2.2.2.2.2.2.2.2.2.2.2.2.2.2.2.2
      GlobRef.Op.get⟩

/-- C12: `get()`, `get(pointer)`, `get(reference)` and the implicit conversion on a
reference, const or not, all yield the value that memory holds at its address, in
particular `v` when the bytes there are the representation of `v`, and each of
them leaves global memory as it was. -/
theorem GlobRef_read_entries_agree {V : Type} [ObjRep V] {c : Bool} (r : GlobRef V c)
    (m : Memory) :
    (∀ e : GlobRef.ReadEntry, r.read m e = (GlobRef.stored_value V r.dart_gptr m, m)) ∧
    (r.get m = GlobRef.stored_value V r.dart_gptr m ∧
      r.get_ptr m = GlobRef.stored_value V r.dart_gptr m ∧
      r.get_ref m = GlobRef.stored_value V r.dart_gptr m ∧
      r.conv m = GlobRef.stored_value V r.dart_gptr m) ∧
    (∀ v : V, read_bytes m r.dart_gptr (ObjRep.sizeof V) = ObjRep.to_bytes v →
      ∀ e : GlobRef.ReadEntry, r.read m e = (v, m)) := by
  have hall : ∀ e : GlobRef.ReadEntry,
      r.read m e = (GlobRef.stored_value V r.dart_gptr m, m) := by
    intro e
    cases e <;> rfl
  refine ⟨hall, ⟨rfl, rfl, rfl, rfl⟩, ?_⟩
  intro v hv e
  rw [hall e]
  unfold GlobRef.stored_value
  rw [hv, ObjRep.of_to_bytes]

/-- Witness for C12: the sample memory holds the pair (1, 2) at offset 0. -/
theorem GlobRef_read_entries_agree_witness :
    read_bytes sample_memory (GlobRef.of_gptr byte_pair true (sample_gptr 0)).dart_gptr
      (ObjRep.sizeof byte_pair) = ObjRep.to_bytes (byte_pair.mk 1 2) ∧
    ∀ e : GlobRef.ReadEntry,
      (GlobRef.of_gptr byte_pair true (sample_gptr 0)).read sample_memory e =
        (⟨1, 2⟩, sample_memory) :=
  ⟨by decide,
   (GlobRef_read_entries_agree (GlobRef.of_gptr byte_pair true (sample_gptr 0))
      sample_memory).2.2 ⟨1, 2⟩ (by decide)⟩

/-! ## View modifiers: local ranges, selection of the local case, ranges, traits -/

/-- C17 (evaluation): on unit 0 the evenly blocked pattern with blocks of 4 has the
contiguous resident range from 0 to 4 and its `local()` inverts `global()` there;
the sub-range from 1 to 4 overlaps it in the indices 1, 2, 3. `begin()` is
`local(max(1, 0)) = 1`, but `end()` applies `local()` to `min(4, 4) = 4`, the index
one past the resident range, which is the first index of the block of unit 1 and
has the local offset 0: the computed range has begin 1 and end 0, so end - begin
is -1 and not 3, the number of indices of the intersection. -/
theorem local_of_sub_end_outside_resident :
    (∀ l : Int, 0 ≤ l → l < (blocked_pattern 4 0).local_capacity →
      (blocked_pattern 4 0).global l = (blocked_pattern 4 0).global 0 + l) ∧
    (∀ l : Int, 0 ≤ l → l < (blocked_pattern 4 0).local_capacity →
      (blocked_pattern 4 0).local_ ((blocked_pattern 4 0).global l) = l) ∧
    max 1 ((blocked_pattern 4 0).global 0) <
      min 4 ((blocked_pattern 4 0).global ((blocked_pattern 4 0).local_capacity - 1) + 1) ∧
    (local_of_sub_16_4 0 1 4).begin_ = 1 ∧ (local_of_sub_16_4 0 1 4).end_ = 0 ∧
    (local_of_sub_16_4 0 1 4).end_ - (local_of_sub_16_4 0 1 4).begin_ ≠
      min 4 ((blocked_pattern 4 0).global ((blocked_pattern 4 0).local_capacity - 1) + 1) -
        max 1 ((blocked_pattern 4 0).global 0) := by
  refine ⟨?_, ?_, by decide, by decide, by decide, by decide⟩
  · intro l _ _
    simp [blocked_pattern]
  · intro l h0 h1
    have h2 : l < 4 := h1
    show (4 * 0 + l) % 4 = l
    omega

/-- C18 (evaluation): the trait record of `ViewOrigin` has `is_origin = true` and
`is_view = true`, so a `ViewLocalMod` built directly over `ViewOrigin` passes
`LocalOfSub = true` to its base class and asks for `ViewLocalModBase<..., true>`,
the non-trivial case; `ViewOrigin` declares no member `local_type`, which that base
and the class name, so the class is ill-formed and there is no `apply()` that
delegates to the local projection of the domain. Over a `ViewSubMod` the class
derives from `ViewLocalModBase<..., true>` and `apply()` returns the image index
set. -/
theorem ViewLocalMod_over_origin_ill_formed :
    (view_traits ViewType.ViewOrigin).is_origin = true ∧
    (view_traits ViewType.ViewOrigin).is_view = true ∧
    ViewLocalMod.LocalOfSub ViewType.ViewOrigin = true ∧
    has_local_type ViewType.ViewOrigin = false ∧
    ViewLocalModBase.instantiate ViewType.ViewOrigin true = none ∧
    ViewLocalModBase.instantiate ViewType.ViewOrigin false = none ∧
    ViewLocalMod.base ViewType.ViewOrigin = none ∧
    (∀ (Local : Type) (domain_local : Local) (ix : ViewSubLocalIndexSet),
      ViewLocalMod.apply ViewType.ViewOrigin domain_local ix = none) ∧
    (∀ (DimDiff : Int) (D : ViewType) (Local : Type) (domain_local : Local)
        (ix : ViewSubLocalIndexSet),
      ViewLocalMod.base (ViewType.ViewSubMod DimDiff D) = some LocalModBase.local_of_sub ∧
      ViewLocalMod.apply (ViewType.ViewSubMod DimDiff D) domain_local ix =
        some (Sum.inr ix)) :=
  ⟨rfl, rfl, rfl, rfl, rfl, rfl, rfl, fun _ _ _ => rfl, fun _ _ _ _ _ => ⟨rfl, rfl⟩⟩

/-- C19: for every `ViewSubMod` node, `begin()` is `begin` of the domain plus its
begin offset and `end()` is `begin` of the domain plus its end offset; for a
`ViewSubMod` with bounds `b2`, `e2` over a `ViewSubMod` with bounds `b1`, `e1` over
`d`, `begin()` is `d.begin() + b1 + b2` and `end()` is `d.begin() + b1 + e2`; and
`end() - begin()`, which is `size()`, is the end offset minus the begin offset of
the outermost node. -/
theorem ViewSubMod_begin_end_additive {DomainType : Type} [Range DomainType]
    (this : ObjAddr) (domain : DomainType) (b e : index_t)
    (this2 : ObjAddr) (b2 e2 : index_t) :
    (ViewSubMod.ctor this domain b e).begin_ = Range.begin_ domain + b ∧
    (ViewSubMod.ctor this domain b e).end_ = Range.begin_ domain + e ∧
    (ViewSubMod.ctor this2 (ViewSubMod.ctor this domain b e) b2 e2).begin_ =
      Range.begin_ domain + b + b2 ∧
    (ViewSubMod.ctor this2 (ViewSubMod.ctor this domain b e) b2 e2).end_ =
      Range.begin_ domain + b + e2 ∧
    (ViewSubMod.ctor this domain b e).end_ - (ViewSubMod.ctor this domain b e).begin_ =
      e - b ∧
    (ViewSubMod.ctor this domain b e).size = e - b ∧
    (ViewSubMod.ctor this2 (ViewSubMod.ctor this domain b e) b2 e2).end_ -
        (ViewSubMod.ctor this2 (ViewSubMod.ctor this domain b e) b2 e2).begin_ =
      e2 - b2 ∧
    (ViewSubMod.ctor this2 (ViewSubMod.ctor this domain b e) b2 e2).size = e2 - b2 := by
  have h1 : (ViewSubMod.ctor this domain b e).begin_ = Range.begin_ domain + b := rfl
  have h2 : (ViewSubMod.ctor this domain b e).end_ = Range.begin_ domain + e := rfl
  have h3 : (ViewSubMod.ctor this2 (ViewSubMod.ctor this domain b e) b2 e2).begin_ =
      Range.begin_ domain + b + b2 := rfl
  have h4 : (ViewSubMod.ctor this2 (ViewSubMod.ctor this domain b e) b2 e2).end_ =
      Range.begin_ domain + b + e2 := rfl
  have h5 : (ViewSubMod.ctor this domain b e).size =
      (ViewSubMod.ctor this domain b e).end_ - (ViewSubMod.ctor this domain b e).begin_ :=
    rfl
  have h6 : (ViewSubMod.ctor this2 (ViewSubMod.ctor this domain b e) b2 e2).size =
      (ViewSubMod.ctor this2 (ViewSubMod.ctor this domain b e) b2 e2).end_ -
        (ViewSubMod.ctor this2 (ViewSubMod.ctor this domain b e) b2 e2).begin_ := rfl
  have e1 : Range.begin_ domain + e - (Range.begin_ domain + b) = e - b := by
    show (_ : Int) = _
    omega
  have e2' : Range.begin_ domain + b + e2 - (Range.begin_ domain + b + b2) = e2 - b2 := by
    show (_ : Int) = _
    omega
  refine ⟨h1, h2, h3, h4, ?_, ?_, ?_, ?_⟩
  · rw [h1, h2]; exact e1
  · rw [h5, h1, h2]; exact e1
  · rw [h3, h4]; exact e2'
  · rw [h6, h3, h4]; exact e2'

/-- The chain `sub(3, 9)` then `sub(2, 5)` over a container starting at position 100
begins at 105 and ends at 108. -/
theorem ViewSubMod_nested_sample :
    (ViewSubMod.ctor 11 (ViewSubMod.ctor 10 (sample_container.mk 1 100) 3 9) 2 5).begin_ = 105 ∧
    (ViewSubMod.ctor 11 (ViewSubMod.ctor 10 (sample_container.mk 1 100) 3 9) 2 5).end_ = 108 ∧
    (ViewSubMod.ctor 11 (ViewSubMod.ctor 10 (sample_container.mk 1 100) 3 9) 2 5).size = 3 := by
  decide

/-- C20: the trait record of `ViewOrigin` is `is_projection = false`,
`is_view = true`, `is_origin = true`, `is_local = false` with `ViewOrigin` as its
origin, domain and image type, and `ViewOrigin::domain_type` is `ViewOrigin`; the
trait record of every `ViewLocalMod` has `is_local = true`, `is_view = true` and
`is_origin = false`, whatever its domain. -/
theorem view_traits_origin_and_local (DimDiff : Int) (DomainType : ViewType) :
    view_traits ViewType.ViewOrigin =
      { origin_type := ViewType.ViewOrigin, domain_type := ViewType.ViewOrigin,
        image_type := ViewType.ViewOrigin, is_projection := false, is_view := true,
        is_origin := true, is_local := false } ∧
    ViewOrigin.domain_type = ViewType.ViewOrigin ∧
    ViewOrigin.is_local = false ∧
    (view_traits (ViewType.ViewLocalMod DimDiff DomainType)).is_local = true ∧
    (view_traits (ViewType.ViewLocalMod DimDiff DomainType)).is_view = true ∧
    (view_traits (ViewType.ViewLocalMod DimDiff DomainType)).is_origin = false ∧
    (view_traits (ViewType.ViewLocalMod DimDiff DomainType)).domain_type = DomainType := by
  refine ⟨rfl, rfl, rfl, rfl, rfl, rfl, rfl⟩

/-! ## GlobRef: locality and compound operators -/

/-- C22: `is_local()` returns true exactly when the unit id of the address equals
the id of the calling unit within the team named by the team id of the address; it
is a function of the address and the team registry only, and as an operation it
leaves global memory as it was. -/
theorem GlobRef_is_local_iff {V : Type} {c : Bool} (teams : Teams) (r : GlobRef V c) :
    (r.is_local teams = true ↔
      r.dart_gptr.unitid = teams.resolve_local_unit r.dart_gptr.teamid) ∧
    (∀ (c2 : Bool) (r2 : GlobRef V c2), r2.dart_gptr = r.dart_gptr →
      r2.is_local teams = r.is_local teams) ∧
    (∀ [ObjRep V] [Add V] [Sub V] [Mul V] [CDiv V] [Xor V] [One V] (m : Memory),
      r.exec m GlobRef.Op.is_local = some m) := by
  refine ⟨?_, ?_, ?_⟩
  · simp [GlobRef.is_local, GlobRef.dart_gptr]
  · intro c2 r2 h
    have h1 : r2._gptr = r._gptr := h
    simp [GlobRef.is_local, h1]
  · intros
    rfl

/-- Witness for C22: unit 0 is the calling unit in team 0 but not in team 1. -/
theorem GlobRef_is_local_iff_witness :
    (GlobRef.of_gptr Byte false (sample_gptr 0)).is_local ⟨fun _ => 0⟩ = true ∧
    (GlobRef.of_gptr Byte false (sample_gptr 0)).is_local ⟨fun t => if t = 0 then 3 else 0⟩
      = false ∧
    (GlobRef.of_gptr Byte true (sample_gptr 0)).is_local ⟨fun _ => 0⟩ =
      (GlobRef.of_gptr Byte false (sample_gptr 0)).is_local ⟨fun _ => 0⟩ :=
  ⟨(GlobRef_is_local_iff ⟨fun _ => 0⟩ (GlobRef.of_gptr Byte false (sample_gptr 0))).1.2 rfl,
   by decide,
   (GlobRef_is_local_iff ⟨fun _ => 0⟩ (GlobRef.of_gptr Byte false (sample_gptr 0))).2.1
     true (GlobRef.of_gptr Byte true (sample_gptr 0)) rfl⟩

theorem write_bytes_outside (m : Memory) (g a : dart_gptr_t) (bs : List Byte)
    (h : ∀ i, i < bs.length → byte_addr g i ≠ a) : write_bytes m g bs a = m a := by
  unfold write_bytes
  split
  · rename_i hc
    by_cases hj : a.offset - g.offset < bs.length
    · exact absurd hc.1 (h _ hj)
    · rw [List.getD_eq_default _ _ (by omega)]
  · rfl

theorem write_bytes_at (m : Memory) (g : dart_gptr_t) (bs : List Byte) (i : Nat)
    (h : i < bs.length) : write_bytes m g bs (byte_addr g i) = bs[i] := by
  unfold write_bytes
  have hc : byte_addr g ((byte_addr g i).offset - g.offset) = byte_addr g i ∧
      g.offset ≤ (byte_addr g i).offset :=
    ⟨byte_addr_offset_sub g i, by simp [byte_addr]⟩
  rw [if_pos hc]
  have hi : (byte_addr g i).offset - g.offset = i := by simp [byte_addr]
  rw [hi, List.getD_eq_getElem _ _ h]

theorem put_blocking_outside {V : Type} [ObjRep V] (g a : dart_gptr_t) (v : V) (m : Memory)
    (h : ¬ in_elem V g a) : put_blocking g v m a = m a := by
  unfold put_blocking
  apply write_bytes_outside
  intro i hi hia
  rw [ObjRep.to_bytes_length] at hi
  exact h ⟨i, hi, hia⟩

theorem holds_byte {V : Type} [ObjRep V] (m : Memory) (g : dart_gptr_t) (v : V)
    (h : holds m g v) (i : Nat) (hi : i < (ObjRep.to_bytes v).length) :
    m (byte_addr g i) = (ObjRep.to_bytes v)[i] := by
  have h1 : (read_bytes m g (ObjRep.sizeof V))[i]? = (ObjRep.to_bytes v)[i]? := by
    rw [show read_bytes m g (ObjRep.sizeof V) = ObjRep.to_bytes v from h]
  have hi2 : i < ObjRep.sizeof V := by rwa [ObjRep.to_bytes_length] at hi
  have h2 : (read_bytes m g (ObjRep.sizeof V))[i]? = some (m (byte_addr g i)) := by
    simp [read_bytes, hi2]
  rw [h2, List.getElem?_eq_getElem hi] at h1
  exact Option.some.inj h1

theorem put_blocking_at {V : Type} [ObjRep V] (g : dart_gptr_t) (v : V) (m m0 : Memory)
    (h : holds m0 g v) (a : dart_gptr_t) (ha : in_elem V g a) :
    put_blocking g v m a = m0 a := by
  obtain ⟨i, hi, rfl⟩ := ha
  have hi2 : i < (ObjRep.to_bytes v).length := by rwa [ObjRep.to_bytes_length]
  unfold put_blocking
  rw [write_bytes_at _ _ _ _ hi2, holds_byte m0 g v h i hi2]

theorem put_blocking_holds {V : Type} [ObjRep V] (g : dart_gptr_t) (v : V) (m : Memory)
    (h : holds m g v) : put_blocking g v m = m := by
  funext a
  by_cases ha : in_elem V g a
  · exact put_blocking_at g v m m h a ha
  · exact put_blocking_outside g a v m ha

theorem holds_get {V : Type} [ObjRep V] (m : Memory) (g : dart_gptr_t) (v : V)
    (h : holds m g v) : (get_blocking g m : V) = v := by
  unfold get_blocking
  rw [show read_bytes m g (ObjRep.sizeof V) = ObjRep.to_bytes v from h, ObjRep.of_to_bytes]

theorem GlobRef_store_spec {V : Type} [ObjRep V] (r : GlobRef V false) (w : V) (m : Memory) :
    r.set w m = some (put_blocking r._gptr w m) ∧
    r.get (put_blocking r._gptr w m) = w ∧
    ∀ a, ¬ in_elem V r.dart_gptr a → put_blocking r._gptr w m a = m a :=
  ⟨rfl, get_put_blocking r._gptr w m, fun a ha => put_blocking_outside r._gptr a w m ha⟩

/-- C26: on a non-const reference `r` holding `v`, postfix `r++` returns `v` and
leaves `v + 1` stored, postfix `r--` returns `v` and leaves `v - 1` stored, prefix
`++r` and `--r` leave `v + 1` and `v - 1` stored and return `r`, so that reading the
result yields the updated value; every byte outside the element of `r` is as
before. -/
theorem GlobRef_inc_dec {V : Type} [ObjRep V] [Add V] [Sub V] [One V]
    (r : GlobRef V false) (m : Memory) :
    (∃ m1, r.post_inc m = some (r.get m, m1) ∧ r.get m1 = r.get m + 1 ∧
      ∀ a, ¬ in_elem V r.dart_gptr a → m1 a = m a) ∧
    (∃ m1, r.post_dec m = some (r.get m, m1) ∧ r.get m1 = r.get m - 1 ∧
      ∀ a, ¬ in_elem V r.dart_gptr a → m1 a = m a) ∧
    (∃ m1 r1, r.pre_inc m = some (r1, m1) ∧ r1.dart_gptr = r.dart_gptr ∧
      r1.get m1 = r.get m + 1 ∧ ∀ a, ¬ in_elem V r.dart_gptr a → m1 a = m a) ∧
    (∃ m1 r1, r.pre_dec m = some (r1, m1) ∧ r1.dart_gptr = r.dart_gptr ∧
      r1.get m1 = r.get m - 1 ∧ ∀ a, ¬ in_elem V r.dart_gptr a → m1 a = m a) :=
  ⟨⟨_, rfl, (GlobRef_store_spec r _ m).2⟩,
   ⟨_, rfl, (GlobRef_store_spec r _ m).2⟩,
   ⟨_, r, rfl, rfl, (GlobRef_store_spec r _ m).2⟩,
   ⟨_, r, rfl, rfl, (GlobRef_store_spec r _ m).2⟩⟩

/-- Witness for C26: `r++` on the byte 1 at offset 0 of the sample memory returns 1,
leaves 2 there and the byte 2 at offset 1 as it was. -/
theorem GlobRef_inc_dec_witness :
    ∃ m1, (GlobRef.of_gptr Byte false (sample_gptr 0)).post_inc sample_memory =
        some (1, m1) ∧
      (GlobRef.of_gptr Byte false (sample_gptr 0)).get m1 = 2 ∧
      m1 (sample_gptr 1) = 2 := by
  have hout : ¬ in_elem Byte (GlobRef.of_gptr Byte false (sample_gptr 0)).dart_gptr
      (sample_gptr 1) := by
    rintro ⟨i, hi, h⟩
    have hi0 : i = 0 := by
      have : i < 1 := hi
      omega
    subst hi0
    exact absurd h (by decide)
  obtain ⟨m1, h2, h3, h4⟩ :=
    (GlobRef_inc_dec (GlobRef.of_gptr Byte false (sample_gptr 0)) sample_memory).1
  exact ⟨m1, h2, by rw [h3]; decide, by rw [h4 _ hout]; decide⟩

/-! ## GlobRef: interleaved compound operators and swap -/

theorem Issuer_steps_eq_add_assign {V : Type} [ObjRep V] [Add V] (r : GlobRef V false)
    (x : V) (m : Memory) :
    r.add_assign x m =
      some (r, ((((Issuer.mk r x RmwState.start).step m).1).step
        ((Issuer.mk r x RmwState.start).step m).2).2) := rfl

/-- C24: two units each run `r += operand` on the same address, every blocking fetch
and store being one step. Run one after the other the two operators leave
`(v + x) + y`; but under the interleaving fetch, fetch, store, store the stored
value is `v + y`, and under fetch, fetch with the stores in the other order it is
`v + x`: one update is lost. On the byte 1 with operands 2 and 4 the interleaving
leaves 5 and not 7. -/
theorem GlobRef_add_assign_lost_update {V : Type} [ObjRep V] [Add V] (g : dart_gptr_t)
    (x y : V) (m : Memory) :
    (GlobRef.of_gptr V false g).get
        (run_interleaved [false, false, true, true] ⟨GlobRef.of_gptr V false g, x, .start⟩
          ⟨GlobRef.of_gptr V false g, y, .start⟩ m).2.2 =
      ((GlobRef.of_gptr V false g).get m + x) + y ∧
    (GlobRef.of_gptr V false g).get
        (run_interleaved [false, true, false, true] ⟨GlobRef.of_gptr V false g, x, .start⟩
          ⟨GlobRef.of_gptr V false g, y, .start⟩ m).2.2 =
      (GlobRef.of_gptr V false g).get m + y ∧
    (GlobRef.of_gptr V false g).get
        (run_interleaved [false, true, true, false] ⟨GlobRef.of_gptr V false g, x, .start⟩
          ⟨GlobRef.of_gptr V false g, y, .start⟩ m).2.2 =
      (GlobRef.of_gptr V false g).get m + x ∧
    ((GlobRef.of_gptr Byte false (sample_gptr 0)).get sample_memory = 1 ∧
      (GlobRef.of_gptr Byte false (sample_gptr 0)).get
        (run_interleaved [false, true, false, true]
          ⟨GlobRef.of_gptr Byte false (sample_gptr 0), 2, .start⟩
          ⟨GlobRef.of_gptr Byte false (sample_gptr 0), 4, .start⟩ sample_memory).2.2 = 5 ∧
      (GlobRef.of_gptr Byte false (sample_gptr 0)).get
        (run_interleaved [false, false, true, true]
          ⟨GlobRef.of_gptr Byte false (sample_gptr 0), 2, .start⟩
          ⟨GlobRef.of_gptr Byte false (sample_gptr 0), 4, .start⟩ sample_memory).2.2 = 7) := by
  refine ⟨?_, ?_, ?_, by decide⟩
  · show get_blocking g (put_blocking g (get_blocking g (put_blocking g _ m) + y) _) = _
    rw [get_put_blocking, get_put_blocking]
    rfl
  · show get_blocking g (put_blocking g (get_blocking g m + y) _) = _
    rw [get_put_blocking]
    rfl
  · show get_blocking g (put_blocking g (get_blocking g m + x) _) = _
    rw [get_put_blocking]
    rfl

theorem swap_values_disjoint {V : Type} [ObjRep V] (a b : GlobRef V false) (m : Memory)
    (hd : disjoint_elems V a._gptr b._gptr) :
    get_blocking a._gptr
        (put_blocking b._gptr (a.get m) (put_blocking a._gptr (b.get m) m)) = b.get m ∧
    get_blocking b._gptr
        (put_blocking b._gptr (a.get m) (put_blocking a._gptr (b.get m) m)) = a.get m := by
  refine ⟨?_, get_put_blocking _ _ _⟩
  rw [get_put_blocking_disjoint _ _ _ _ hd, get_put_blocking]

theorem disjoint_elems_not_in {V : Type} [ObjRep V] (g h a : dart_gptr_t)
    (hd : disjoint_elems V g h) (ha : in_elem V g a) : ¬ in_elem V h a := by
  obtain ⟨i, hi, rfl⟩ := ha
  rintro ⟨j, hj, hja⟩
  exact hd i hi j hj hja.symm

/-- C30: for every memory and every two non-const references `a` and `b`,
`a.swap(b)` is well-formed and leaves every byte outside the elements of `a` and `b`
as it was, and so does a second `a.swap(b)`. When `a` and `b` alias, the swap leaves
the value stored there as it was, and the whole memory if the bytes there were the
representation of a value. When `a` and `b` are bound to one element or to two
distinct elements (elements that share no byte), performing `a.swap(b)` twice
restores the values of `a` and `b`, and the whole memory if the bytes of both
elements were representations of values. -/
theorem GlobRef_swap_involution {V : Type} [ObjRep V] (a b : GlobRef V false) (m : Memory) :
    ∃ m1, a.swap b m = some m1 ∧
      (∀ x, ¬ in_elem V a.dart_gptr x → ¬ in_elem V b.dart_gptr x → m1 x = m x) ∧
      (a.dart_gptr = b.dart_gptr →
        a.get m1 = a.get m ∧ ∀ va : V, holds m a.dart_gptr va → m1 = m) ∧
      ∃ m2, a.swap b m1 = some m2 ∧
        (∀ x, ¬ in_elem V a.dart_gptr x → ¬ in_elem V b.dart_gptr x → m2 x = m x) ∧
        ((a.dart_gptr = b.dart_gptr ∨ disjoint_elems V a.dart_gptr b.dart_gptr) →
          a.get m2 = a.get m ∧ b.get m2 = b.get m ∧
          (∀ va vb : V, holds m a.dart_gptr va → holds m b.dart_gptr vb → m2 = m)) := by
  have hframe : ∀ (m0 : Memory) (u w : V) (x : dart_gptr_t),
      ¬ in_elem V a.dart_gptr x → ¬ in_elem V b.dart_gptr x →
      put_blocking b._gptr u (put_blocking a._gptr w m0) x = m0 x := by
    intro m0 u w x hxa hxb
    rw [put_blocking_outside b._gptr x u _ hxb, put_blocking_outside a._gptr x w _ hxa]
  refine ⟨_, GlobRef_swap_eq a b m, fun x hxa hxb => hframe m _ _ x hxa hxb, ?_,
    _, GlobRef_swap_eq a b _, ?_, ?_⟩
  · -- the aliasing case
    intro hal
    have hal1 : a._gptr = b._gptr := hal
    refine ⟨?_, ?_⟩
    · show get_blocking a._gptr _ = _
      rw [hal1, get_put_blocking]
    · intro va hva
      have hva1 : holds m a._gptr va := hva
      have hga : a.get m = va := holds_get m a._gptr va hva1
      have hgb : b.get m = va := by
        show get_blocking b._gptr m = va
        rw [← hal1]
        exact hga
      rw [hga, hgb, ← hal1, put_blocking_holds a._gptr va m hva1,
        put_blocking_holds a._gptr va m hva1]
  · -- the bytes outside the two elements after the second swap
    intro x hxa hxb
    rw [hframe _ _ _ x hxa hxb, hframe _ _ _ x hxa hxb]
  · rintro (hal | hd)
    · -- both references at one address: every store writes the value read there
      have hal1 : a._gptr = b._gptr := hal
      have hb : b = a := by
        cases a
        cases b
        simp only [GlobRef.mk.injEq]
        exact hal1.symm
      subst hb
      have h1 : b.get (put_blocking b._gptr (b.get m) (put_blocking b._gptr (b.get m) m)) =
          b.get m := get_put_blocking _ _ _
      refine ⟨?_, ?_, ?_⟩
      · rw [h1]
        exact get_put_blocking _ _ _
      · rw [h1]
        exact get_put_blocking _ _ _
      · intro va vb hva _
        have hva1 : holds m b._gptr va := hva
        have hg : b.get m = va := holds_get m b._gptr va hva1
        rw [h1, hg, put_blocking_holds b._gptr va m hva1,
          put_blocking_holds b._gptr va m hva1, put_blocking_holds b._gptr va m hva1,
          put_blocking_holds b._gptr va m hva1]
    · -- two elements without a common byte
      have hd1 : disjoint_elems V a._gptr b._gptr := hd
      obtain ⟨h1a, h1b⟩ := swap_values_disjoint a b m hd1
      have h1a' : a.get (put_blocking b._gptr (a.get m) (put_blocking a._gptr (b.get m) m)) =
          b.get m := h1a
      have h1b' : b.get (put_blocking b._gptr (a.get m) (put_blocking a._gptr (b.get m) m)) =
          a.get m := h1b
      obtain ⟨h2a, h2b⟩ := swap_values_disjoint a b
        (put_blocking b._gptr (a.get m) (put_blocking a._gptr (b.get m) m)) hd1
      refine ⟨?_, ?_, ?_⟩
      · show get_blocking a._gptr _ = _
        rw [h2a]
        exact h1b'
      · show get_blocking b._gptr _ = _
        rw [h2b]
        exact h1a'
      · intro va vb hva hvb
        have hva1 : holds m a._gptr va := hva
        have hvb1 : holds m b._gptr vb := hvb
        have hga : a.get m = va := holds_get m a._gptr va hva1
        have hgb : b.get m = vb := holds_get m b._gptr vb hvb1
        rw [h1a', h1b', hga, hgb]
        funext x
        by_cases hxb : in_elem V b._gptr x
        · exact put_blocking_at b._gptr vb _ m hvb1 x hxb
        · rw [put_blocking_outside b._gptr x vb _ hxb]
          by_cases hxa : in_elem V a._gptr x
          · exact put_blocking_at a._gptr va _ m hva1 x hxa
          · rw [put_blocking_outside a._gptr x va _ hxa]
            exact hframe m _ _ x hxa hxb

/-- Witness for C30: the two `byte_pair` elements at offsets 0 and 2 of the sample
memory, holding (1, 2) and (3, 4); the byte at offset 4 lies outside both; and one
reference swapped with itself. -/
theorem GlobRef_swap_involution_witness :
    disjoint_elems byte_pair (sample_gptr 0) (sample_gptr 2) ∧
    holds sample_memory (sample_gptr 0) (byte_pair.mk 1 2) ∧
    holds sample_memory (sample_gptr 2) (byte_pair.mk 3 4) ∧
    (∃ m1 m2, (GlobRef.of_gptr byte_pair false (sample_gptr 0)).swap
        (GlobRef.of_gptr byte_pair false (sample_gptr 2)) sample_memory = some m1 ∧
      (GlobRef.of_gptr byte_pair false (sample_gptr 0)).swap
        (GlobRef.of_gptr byte_pair false (sample_gptr 2)) m1 = some m2 ∧
      m1 (sample_gptr 4) = sample_memory (sample_gptr 4) ∧
      m2 = sample_memory) ∧
    (∃ m1, (GlobRef.of_gptr byte_pair false (sample_gptr 0)).swap
        (GlobRef.of_gptr byte_pair false (sample_gptr 0)) sample_memory = some m1 ∧
      m1 = sample_memory) := by
  have hd : disjoint_elems byte_pair (sample_gptr 0) (sample_gptr 2) := by decide
  have h1 : holds sample_memory (sample_gptr 0) (byte_pair.mk 1 2) := by decide
  have h2 : holds sample_memory (sample_gptr 2) (byte_pair.mk 3 4) := by decide
  have hout : ∀ g : dart_gptr_t, g = sample_gptr 0 ∨ g = sample_gptr 2 →
      ¬ in_elem byte_pair g (sample_gptr 4) := by
    rintro g hg ⟨i, hi, h⟩
    have hi2 : i < 2 := hi
    have ho : g.offset + i = 4 := congrArg dart_gptr_t.offset h
    rcases hg with rfl | rfl
    · have : (sample_gptr 0).offset = 0 := rfl
      omega
    · have : (sample_gptr 2).offset = 2 := rfl
      omega
  obtain ⟨m1, hm1, hfr, _, m2, hm2, _, hinv⟩ :=
    GlobRef_swap_involution (GlobRef.of_gptr byte_pair false (sample_gptr 0))
      (GlobRef.of_gptr byte_pair false (sample_gptr 2)) sample_memory
  obtain ⟨m3, hm3, _, hal, _⟩ :=
    GlobRef_swap_involution (GlobRef.of_gptr byte_pair false (sample_gptr 0))
      (GlobRef.of_gptr byte_pair false (sample_gptr 0)) sample_memory
  exact ⟨hd, h1, h2,
    ⟨m1, m2, hm1, hm2, hfr _ (hout _ (Or.inl rfl)) (hout _ (Or.inr rfl)),
      (hinv (Or.inr hd)).2.2 _ _ h1 h2⟩,
    ⟨m3, hm3, (hal rfl).2 _ h1⟩⟩

/-! ## View modifiers: locality of chains and identity of local nodes -/

theorem view_traits_sub_chain_is_local (dims : List Int) (base : ViewType) :
    (view_traits (sub_chain dims base)).is_local = (view_traits base).is_local := by
  induction dims with
  | nil => rfl
  | cons DimDiff dims ih =>
    show (view_traits (sub_chain dims base)).is_local = _
    exact ih

/-- C21: the member `is_local` of a `ViewSubMod` and the `is_local` trait of a
`ViewSubMod` are the `is_local` trait of its domain; hence a chain of any number of
`ViewSubMod`s has the `is_local` trait of the node beneath it, `true` over a
`ViewLocalMod` and `false` over `ViewOrigin`, and so has the member `is_local` of a
`ViewSubMod` put on top of the chain. -/
theorem ViewSubMod_is_local_inherited (DimDiff : Int) (DomainType : ViewType)
    (dims : List Int) (base : ViewType) (DimDiff0 : Int) :
    ViewSubMod.is_local DomainType = (view_traits DomainType).is_local ∧
    (view_traits (ViewType.ViewSubMod DimDiff DomainType)).is_local =
      (view_traits DomainType).is_local ∧
    (view_traits (sub_chain dims base)).is_local = (view_traits base).is_local ∧
    (view_traits (sub_chain dims (ViewType.ViewLocalMod DimDiff0 base))).is_local = true ∧
    (view_traits (sub_chain dims ViewType.ViewOrigin)).is_local = false ∧
    ViewSubMod.is_local (sub_chain dims (ViewType.ViewLocalMod DimDiff0 base)) = true ∧
    ViewSubMod.is_local (sub_chain dims ViewType.ViewOrigin) = false := by
  refine ⟨rfl, rfl, view_traits_sub_chain_is_local dims base, ?_, ?_, ?_, ?_⟩
  · rw [view_traits_sub_chain_is_local]
    rfl
  · rw [view_traits_sub_chain_is_local]
    rfl
  · unfold ViewSubMod.is_local
    rw [view_traits_sub_chain_is_local]
    rfl
  · unfold ViewSubMod.is_local
    rw [view_traits_sub_chain_is_local]
    rfl

/-- A chain of three `ViewSubMod`s is local over a `ViewLocalMod` and not local over
`ViewOrigin`. -/
theorem sub_chain_sample :
    (view_traits (sub_chain [0, -1, 0]
      (ViewType.ViewLocalMod 0 ViewType.ViewOrigin))).is_local = true ∧
    (view_traits (sub_chain [0, -1, 0] ViewType.ViewOrigin)).is_local = false := by
  decide

/-- C27: `a == b` on two `ViewLocalMod` nodes holds exactly when they are the same
object or their domain references denote the same object; `==` on two `ViewOrigin`
objects holds exactly when they are the same object; two distinct `ViewLocalMod`
nodes over two distinct `ViewSubMod` objects compare unequal, whether or not the
two `ViewSubMod`s compare equal; and `!=` negates `==` for both classes. -/
theorem ViewLocalMod_eq_identity {DomainType : Type} [Addressable DomainType]
    (a b : ViewLocalMod DomainType) (o1 o2 : ViewOrigin) :
    (a.eq b = true ↔
      (a.addr = b.addr ∨ Addressable.addr_of a._domain = Addressable.addr_of b._domain)) ∧
    (o1.eq o2 = true ↔ o1.addr = o2.addr) ∧
    (∀ (s1 s2 : ViewSubMod DomainType) (p q : ObjAddr), p ≠ q → s1.addr ≠ s2.addr →
      (ViewLocalMod.ctor p s1).eq (ViewLocalMod.ctor q s2) = false) ∧
    a.ne b = !(a.eq b) ∧
    o1.ne o2 = !(o1.eq o2) := by
  refine ⟨?_, ?_, ?_, rfl, rfl⟩
  · simp [ViewLocalMod.eq]
  · simp [ViewOrigin.eq]
  · intro s1 s2 p q hpq hs
    have hs1 : Addressable.addr_of s1 ≠ Addressable.addr_of s2 := hs
    simp [ViewLocalMod.eq, ViewLocalMod.ctor, hpq, hs1]

/-- Witness for C27: two `ViewSubMod` objects at addresses 10 and 11 with bounds 2
and 5 over one container compare equal, the `ViewLocalMod` nodes at addresses 20
and 21 over them compare unequal. -/
theorem ViewLocalMod_eq_identity_witness :
    (ViewSubMod.ctor 10 (sample_container.mk 1 0) 2 5).eq
      (ViewSubMod.ctor 11 (sample_container.mk 1 0) 2 5) = true ∧
    (ViewLocalMod.ctor 20 (ViewSubMod.ctor 10 (sample_container.mk 1 0) 2 5)).eq
      (ViewLocalMod.ctor 21 (ViewSubMod.ctor 11 (sample_container.mk 1 0) 2 5)) = false :=
  ⟨by decide,
   (ViewLocalMod_eq_identity
      (ViewLocalMod.ctor 20 (sample_container.mk 1 0))
      (ViewLocalMod.ctor 21 (sample_container.mk 1 0)) ⟨1⟩ ⟨2⟩).2.2.1
      (ViewSubMod.ctor 10 (sample_container.mk 1 0) 2 5)
      (ViewSubMod.ctor 11 (sample_container.mk 1 0) 2 5) 20 21 (by decide) (by decide)⟩

/-! ## The algorithm `dash::equal` -/

theorem equal_not_unit_0 {V : Type} [DecidableEq V] (team : Team) (local_1 second : List V)
    (l_results_local : Nat → Bool) (h : team.myid ≠ 0) :
    equal team local_1 second l_results_local = true := by
  unfold equal
  simp [h]

/-- C25 (evaluation): the first range 1, 2 is spread over a team of two units, the
second range is 1, 3, so the local part 2 of unit 1 differs from the second range.
On unit 1 both overloads of `dash::equal` return true, whatever is found in
`l_results`; on unit 0, whose local part 1 matches, the result is what unit 0 finds
at `l_results.local[1]`. -/
theorem equal_returns_true_on_unit_1 (l_results_local : Nat → Bool) :
    std_equal [2] [1, 3] = false ∧
    equal ⟨1, 2⟩ [2] [1, 3] l_results_local = true ∧
    equal_pred ⟨1, 2⟩ [2] [1, 3] (fun x y => decide (x = y)) l_results_local = true ∧
    equal ⟨0, 2⟩ [1] [1, 3] l_results_local = l_results_local 1 := by
  refine ⟨by decide, rfl, rfl, ?_⟩
  simp [equal, and_local_results, std_equal, std_equal_pred, List.range_succ]

/-! ## Sequence algebra: `append` and the involution `reverse` -/

namespace ce

/-- C28: for all sequences `a` and `b`, `append(a, b)` is well-formed, has length
`length a + length b`, holds `a[i]` at every position `i` below `length a` and
`b[i - length a]` at the positions from there on; and for every element `e`,
`append(a, e)` is `append(a, [e])`: it has length `length a + 1`, agrees with `a` on
the first `length a` positions and holds `e` last. The results are new sequences;
`a` and `b` are only read. -/
theorem append_spec {ValueT : Type} (a b : List ValueT) (e : ValueT) :
    (∃ t, append a b = some t ∧ t.length = a.length + b.length ∧
      (∀ i, i < a.length → t[i]? = a[i]?) ∧
      (∀ i, a.length ≤ i → i < a.length + b.length → t[i]? = b[i - a.length]?)) ∧
    append_elem a e = append a [e] ∧
    (∃ t, append_elem a e = some t ∧ t.length = a.length + 1 ∧
      (∀ i, i < a.length → t[i]? = a[i]?) ∧ t[a.length]? = some e) := by
  refine ⟨⟨a ++ b, append_eq a b, by simp, ?_, ?_⟩, ?_,
    ⟨a ++ [e], append_elem_eq a e, by simp, ?_, ?_⟩⟩
  · intro i hi
    exact List.getElem?_append_left hi
  · intro i hi _
    exact List.getElem?_append_right hi
  · rw [append_elem_eq, append_eq]
  · intro i hi
    exact List.getElem?_append_left hi
  · rw [List.getElem?_append_right (le_refl _)]
    simp

/-- Witness for C28: `append` of 1, 2 and 3, 4, 5, and of 1, 2 and the element 9. -/
theorem append_spec_witness :
    (∃ t, append [1, 2] [3, 4, 5] = some t ∧ t.length = [1, 2].length + [3, 4, 5].length ∧
      (∀ i, i < [1, 2].length → t[i]? = [1, 2][i]?) ∧
      (∀ i, [1, 2].length ≤ i → i < [1, 2].length + [3, 4, 5].length →
        t[i]? = [3, 4, 5][i - [1, 2].length]?)) ∧
    append [1, 2] [3, 4, 5] = some [1, 2, 3, 4, 5] ∧
    append_elem [1, 2] 9 = some [1, 2, 9] :=
  ⟨(append_spec [1, 2] [3, 4, 5] 9).1, by rw [append_eq]; rfl, by rw [append_elem_eq]; rfl⟩

/-- C29: for every sequence `s`, `reverse(s)` is well-formed and `reverse` of it is
`s` again. -/
theorem reverse_involution {ValueT : Type} (s : List ValueT) :
    (reverse s).bind reverse = some s ∧
    ∃ t, reverse s = some t ∧ reverse t = some s := by
  have h : reverse s.reverse = some s := by
    rw [reverse_eq, List.reverse_reverse]
  refine ⟨?_, s.reverse, reverse_eq s, h⟩
  rw [reverse_eq]
  exact h

/-- The sequence 1, 2, 3 reversed twice. -/
theorem reverse_involution_sample :
    reverse [1, 2, 3] = some [3, 2, 1] ∧ reverse [3, 2, 1] = some [1, 2, 3] := by
  constructor <;> (rw [reverse_eq]; rfl)

end ce

/-! ## GlobRef: no operation rebinds a reference -/

/-- C31: no operation rebinds a reference. A reference constructed from an address
returns that address from `dart_gptr()`; the object is the same after every
operation (`set`, `put`, value assignment, reference assignment, the compound and
the prefix and postfix operators, `swap`); every reference that value assignment,
reference assignment, a compound operator or a prefix operator returns is bound to
the address of the reference it was called on; and `swap` leaves both references
bound as before. Reference assignment `r1 = r2` is well-formed, stores the value
read at the address of `r2` into the address of `r1`, returns `r1`, and leaves the
value of `r2` as it was, `r1` and `r2` being bound to one element or to two distinct
elements (elements that share no byte). -/
theorem GlobRef_no_rebinding {V : Type} [ObjRep V] [Add V] [Sub V] [Mul V] [CDiv V] [Xor V]
    [One V] (r1 r2 : GlobRef V false) (m : Memory) :
    (∀ (c : Bool) (g : dart_gptr_t), (GlobRef.of_gptr V c g).dart_gptr = g) ∧
    (∀ op : GlobRef.Op V, (r1.after op).dart_gptr = r1.dart_gptr) ∧
    (∀ (op : GlobRef.Op V) (res : GlobRef V false), r1.returned_ref m op = some res →
      res.dart_gptr = r1.dart_gptr) ∧
    (∃ a b m1, r1.swap_bindings r2 m = some (a, b, m1) ∧ r1.swap r2 m = some m1 ∧
      a.dart_gptr = r1.dart_gptr ∧ b.dart_gptr = r2.dart_gptr) ∧
    (∃ res m1, r1.assign_ref r2 m = some (res, m1) ∧
      res.dart_gptr = r1.dart_gptr ∧ r1.get m1 = r2.get m ∧
      ((r1.dart_gptr = r2.dart_gptr ∨ disjoint_elems V r2.dart_gptr r1.dart_gptr) →
        r2.get m1 = r2.get m)) := by
  refine ⟨fun _ _ => rfl, fun _ => rfl, ?_, ⟨r1, r2, _, rfl, rfl, rfl, rfl⟩,
    ⟨r1, _, rfl, rfl, get_put_blocking _ _ _, ?_⟩⟩
  · intro op res h
    cases op
    case div_assign ref =>
      have h1 : ((CDiv.div (r1.get m) ref).bind fun q => r1.assign q m).map Prod.fst =
          some res := h
      cases hq : CDiv.div (r1.get m) ref with
      | none => rw [hq] at h1; exact absurd h1 (by simp)
      | some q =>
        rw [hq] at h1
        have h2 : some r1 = some res := h1
        rw [← Option.some.inj h2]
    all_goals first
      | (have h1 : some r1 = some res := h
         rw [← Option.some.inj h1])
      | (have h1 : (none : Option (GlobRef V false)) = some res := h
         exact absurd h1 (by simp))
  · rintro (hal | hd)
    · have hal1 : r1._gptr = r2._gptr := hal
      show get_blocking r2._gptr (put_blocking r1._gptr _ m) = _
      rw [hal1]
      exact get_put_blocking _ _ _
    · have hd1 : disjoint_elems V r2._gptr r1._gptr := hd
      exact get_put_blocking_disjoint _ _ _ _ hd1

/-- Witness for C31: `r1 = r2` for the bytes at offsets 1 and 0 of the
sample memory, and the reference returned by `r1 += 5`. -/
theorem GlobRef_no_rebinding_witness :
    disjoint_elems Byte (sample_gptr 0) (sample_gptr 1) ∧
    (∀ res, (GlobRef.of_gptr Byte false (sample_gptr 1)).returned_ref sample_memory
        (GlobRef.Op.add_assign 5) = some res → res.dart_gptr = sample_gptr 1) ∧
    (∃ res m1, (GlobRef.of_gptr Byte false (sample_gptr 1)).assign_ref
        (GlobRef.of_gptr Byte false (sample_gptr 0)) sample_memory = some (res, m1) ∧
      res.dart_gptr = sample_gptr 1 ∧
      (GlobRef.of_gptr Byte false (sample_gptr 1)).get m1 = 1 ∧
      (GlobRef.of_gptr Byte false (sample_gptr 0)).get m1 = 1) := by
  have hd : disjoint_elems Byte (sample_gptr 0) (sample_gptr 1) := by decide
  obtain ⟨_, _, hret, _, res, m1, h1, h2, h3, h4⟩ :=
    GlobRef_no_rebinding (GlobRef.of_gptr Byte false (sample_gptr 1))
      (GlobRef.of_gptr Byte false (sample_gptr 0)) sample_memory
  exact ⟨hd, fun res0 h => hret _ res0 h, res, m1, h1, h2, by rw [h3]; decide,
    by rw [h4 (Or.inr hd)]; decide⟩

end dash
